import Mathlib

/-!
# Verification of the Money_Tracker budget engine (src/main.py)

Shallow embedding of the core accounting engine of the repository:
the purchase ledger, the monthly budget schedule, the carry-forward
walk `cumulative_carry_until`, the monthly summary
`current_month_summary`, and the year-to-date aggregation `ytd_totals`.

Python `datetime` values (always UTC in this program) are embedded as a
structure of numeric fields with the month constrained to 1..12 (Python's
`datetime` rejects any other month), compared lexicographically
(year, month, day, hour, minute, second, microsecond) just as Python
compares naive/equal-offset datetimes.  Monetary amounts (Python floats)
are embedded as `ℚ`.  The SQLite database is embedded as a state record
holding the list of `MonthlyBudget` rows and `Purchase` rows; functions
that write rows return the new state explicitly.
-/

/-- A UTC datetime: the fields of a Python `datetime`.  `month` carries the
1..12 bound that Python's constructor enforces. -/
structure PyDateTime where
  year : Nat
  month : {m : Nat // 1 ≤ m ∧ m ≤ 12}
  day : Nat
  hour : Nat
  minute : Nat
  second : Nat
  microsecond : Nat
deriving DecidableEq

namespace PyDateTime

/-- Python datetime comparison: lexicographic on
(year, month, day, hour, minute, second, microsecond). -/
def ltb (a b : PyDateTime) : Bool :=
  if a.year ≠ b.year then a.year < b.year
  else if a.month.val ≠ b.month.val then a.month.val < b.month.val
  else if a.day ≠ b.day then a.day < b.day
  else if a.hour ≠ b.hour then a.hour < b.hour
  else if a.minute ≠ b.minute then a.minute < b.minute
  else if a.second ≠ b.second then a.second < b.second
  else a.microsecond < b.microsecond

/-- Python `<=` on datetimes. -/
def leb (a b : PyDateTime) : Bool := a.ltb b || a = b

end PyDateTime

/-- `month_start` from src/main.py line 47: the first instant of `dt`'s month
(`dt.replace(day=1, hour=0, minute=0, second=0, microsecond=0, tzinfo=utc)`). -/
def py_month_start (dt : PyDateTime) : PyDateTime :=
  { dt with day := 1, hour := 0, minute := 0, second := 0, microsecond := 0 }

/-- `next_month_start` from src/main.py lines 50-54: the first instant of the
following month, rolling December over to January of the next year. -/
def next_month_start (dt : PyDateTime) : PyDateTime :=
  if h : dt.month.val = 12 then
    { dt with year := dt.year + 1, month := ⟨1, by omega⟩,
              day := 1, hour := 0, minute := 0, second := 0, microsecond := 0 }
  else
    { dt with month := ⟨dt.month.val + 1, by have := dt.month.property; omega⟩,
              day := 1, hour := 0, minute := 0, second := 0, microsecond := 0 }

/-- A datetime that is the first instant of its month (image of `py_month_start`). -/
def isMonthStart (d : PyDateTime) : Prop :=
  d.day = 1 ∧ d.hour = 0 ∧ d.minute = 0 ∧ d.second = 0 ∧ d.microsecond = 0

instance (d : PyDateTime) : Decidable (isMonthStart d) := by
  unfold isMonthStart; infer_instance

/-- Linear month index: months since year 0, used as the termination measure
of the carry walk. -/
def monthIdx (d : PyDateTime) : Nat := d.year * 12 + (d.month.val - 1)

/-! ## Data model (src/main.py lines 19-40)

`Category`, `MonthlyBudget` and `Purchase` rows, and the database state.
Row ids are immaterial to the engine (rows are looked up by category id and
month / timestamp), so they are not modelled; monetary amounts are `ℚ`. -/

/-- A `Category` row (src/main.py lines 19-23). -/
structure Category where
  id : Nat
  name : String
  is_active : Bool
  display_order : Nat
deriving DecidableEq

/-- A `MonthlyBudget` row (src/main.py lines 26-32); the table carries a
uniqueness constraint on (category_id, month_start). -/
structure MonthlyBudget where
  category_id : Nat
  month_start : PyDateTime
  base_budget : ℚ
deriving DecidableEq

/-- A `Purchase` row (src/main.py lines 34-40). -/
structure Purchase where
  category_id : Nat
  name : String
  amount : ℚ
  ts : PyDateTime
deriving DecidableEq

/-- The persistent database state: the `MonthlyBudget` and `Purchase` tables.
Functions that write rows take a state and return the updated one. -/
structure DBState where
  budgets : List MonthlyBudget
  purchases : List Purchase
deriving DecidableEq

/-- The database uniqueness constraint `uniq_cat_month` (src/main.py line 32):
no two budget rows share (category_id, month_start). -/
def UniqueBudgets (bs : List MonthlyBudget) : Prop :=
  bs.Pairwise (fun a b => ¬(a.category_id = b.category_id ∧ a.month_start = b.month_start))

/-- App-level invariant: every budget row's `month_start` is a month start
(rows are only ever created at `month_start`/`next_month_start` values). -/
def MonthStartBudgets (bs : List MonthlyBudget) : Prop :=
  ∀ mb ∈ bs, isMonthStart mb.month_start

/-- A budget row for category `cid` at exactly month `m` exists. -/
def RowAt (bs : List MonthlyBudget) (cid : Nat) (m : PyDateTime) : Prop :=
  ∃ mb ∈ bs, mb.category_id = cid ∧ mb.month_start = m

/-! ## Queries and the schedule (src/main.py lines 56-69) -/

/-- `month_spend_for_category` (src/main.py lines 56-61): sum of purchase
amounts of the category with `start_dt <= ts < end_dt` (`COALESCE(SUM,0)`). -/
def month_spend_for_category (purchases : List Purchase) (cat_id : Nat)
    (start_dt end_dt : PyDateTime) : ℚ :=
  (purchases.filter (fun p =>
      p.category_id == cat_id && PyDateTime.leb start_dt p.ts
        && PyDateTime.ltb p.ts end_dt)).foldl (fun s p => s + p.amount) 0

/-- The lookup inside `get_or_create_monthly_budget` (src/main.py line 64):
`MonthlyBudget.query.filter_by(category_id=cat.id, month_start=mstart).first()`. -/
def findBudget (bs : List MonthlyBudget) (cid : Nat) (mstart : PyDateTime) :
    Option MonthlyBudget :=
  bs.find? (fun mb => mb.category_id == cid && mb.month_start == mstart)

/-- `get_or_create_monthly_budget` (src/main.py lines 63-69): return the
existing row for (category, month), or create one seeded with `default_base`
and commit it.  Returns the row together with the updated state. -/
def get_or_create_monthly_budget (st : DBState) (cat : Category)
    (mstart : PyDateTime) (default_base : ℚ) : MonthlyBudget × DBState :=
  match findBudget st.budgets cat.id mstart with
  | some mb => (mb, st)
  | none =>
      let mb : MonthlyBudget :=
        { category_id := cat.id, month_start := mstart, base_budget := default_base }
      (mb, { st with budgets := st.budgets ++ [mb] })

/-- The query at src/main.py lines 81-84 (also 98-101): the budget row of the
category with the greatest `month_start <= cur` (`ORDER BY month_start DESC`,
`first()`; ties cannot arise under the table's uniqueness constraint). -/
def most_recent_budget_on_or_before (bs : List MonthlyBudget) (cid : Nat)
    (cur : PyDateTime) : Option MonthlyBudget :=
  (bs.filter (fun mb => mb.category_id == cid && PyDateTime.leb mb.month_start cur)).foldl
    (fun acc mb =>
      match acc with
      | none => some mb
      | some best =>
          if PyDateTime.ltb best.month_start mb.month_start then some mb else acc)
    none

/-- `func.min(Purchase.ts)` for the category (src/main.py line 72). -/
def first_purchase_ts (purchases : List Purchase) (cid : Nat) : Option PyDateTime :=
  (purchases.filter (fun p => p.category_id == cid)).foldl
    (fun acc p =>
      match acc with
      | none => some p.ts
      | some t => if PyDateTime.ltb p.ts t then some p.ts else acc)
    none

/-- `func.min(MonthlyBudget.month_start)` for the category (src/main.py line 73). -/
def first_budget_ts (bs : List MonthlyBudget) (cid : Nat) : Option PyDateTime :=
  (bs.filter (fun mb => mb.category_id == cid)).foldl
    (fun acc mb =>
      match acc with
      | none => some mb.month_start
      | some t => if PyDateTime.ltb mb.month_start t then some mb.month_start else acc)
    none

/-! ## Carry-forward engine (src/main.py lines 71-93)

`cumulative_carry_until` walks one calendar month at a time from the
category's first activity up to (but excluding) the target month.  The
configuration lookup `load_cfg()["categories"].get(cat.name, 0.0)`
(src/main.py line 88) is modelled as a function `cfg : String → ℚ` with the
0.0 default folded in. -/

/-- The body of each loop iteration at month `cur` (src/main.py lines 81-89):
resolve the base budget for `cur` from the most recent row at or before it
(materializing a row at `cur`), falling back to the configured default. -/
def resolve_month_budget (cfg : String → ℚ) (st : DBState) (cat : Category)
    (cur : PyDateTime) : MonthlyBudget × DBState :=
  match most_recent_budget_on_or_before st.budgets cat.id cur with
  | some prev_mb => get_or_create_monthly_budget st cat cur prev_mb.base_budget
  | none => get_or_create_monthly_budget st cat cur (cfg cat.name)

/-- The `while cur < up_to_month_start` loop of `cumulative_carry_until`
(src/main.py lines 79-92), with an explicit iteration bound `fuel`; the
caller `carry_loop` passes a bound that can never run out while the guard
holds, so `carry_loop_eq` below recovers the exact while-loop unfolding. -/
def carry_go (cfg : String → ℚ) (cat : Category) (up_to : PyDateTime) :
    Nat → PyDateTime → ℚ → DBState → ℚ × DBState
  | 0, _, carry, st => (carry, st)
  | fuel + 1, cur, carry, st =>
      if PyDateTime.ltb cur up_to then
        let nxt := next_month_start cur
        let r := resolve_month_budget cfg st cat cur
        let spent := month_spend_for_category st.purchases cat.id cur nxt
        carry_go cfg cat up_to fuel nxt (carry + (r.1.base_budget - spent)) r.2
      else (carry, st)

/-- The month walk of `cumulative_carry_until` starting at `cur` with
accumulated carry `carry`. -/
def carry_loop (cfg : String → ℚ) (cat : Category) (up_to cur : PyDateTime)
    (carry : ℚ) (st : DBState) : ℚ × DBState :=
  carry_go cfg cat up_to (monthIdx up_to + 1 - monthIdx cur) cur carry st

/-- `first_purchase_ts or first_budget_ts` (src/main.py lines 74-76): `None`
only when the category has neither purchases nor budget rows; otherwise the
first purchase timestamp when any purchase exists, else the first budget
month. -/
def first_activity (st : DBState) (cat : Category) : Option PyDateTime :=
  (first_purchase_ts st.purchases cat.id).orElse
    (fun _ => first_budget_ts st.budgets cat.id)

/-- `cumulative_carry_until` (src/main.py lines 71-93): sum of
(base − spend) over every month from the first-activity month up to, but
excluding, `up_to_month_start`, materializing budget rows along the way. -/
def cumulative_carry_until (cfg : String → ℚ) (st : DBState) (cat : Category)
    (up_to_month_start : PyDateTime) : ℚ × DBState :=
  match first_activity st cat with
  | none => (0, st)
  | some t => carry_loop cfg cat up_to_month_start (py_month_start t) 0 st

/-! ## Monthly summary (src/main.py lines 95-121) -/

/-- The dict returned by `current_month_summary` (src/main.py lines 113-121). -/
structure Summary where
  base : ℚ
  carry_in : ℚ
  effective : ℚ
  spent : ℚ
  remaining : ℚ
  pct : ℚ
  over_by : ℚ
deriving DecidableEq

/-- `current_month_summary` (src/main.py lines 95-121). -/
def current_month_summary (cfg : String → ℚ) (st : DBState) (cat : Category)
    (now_utc : PyDateTime) : Summary × DBState :=
  let cur_start := py_month_start now_utc
  let nxt_start := next_month_start cur_start
  let prev_mb := most_recent_budget_on_or_before st.budgets cat.id cur_start
  let bres : ℚ × DBState :=
    match prev_mb with
    | some pmb =>
        if pmb.month_start = cur_start then (pmb.base_budget, st)
        else
          let r := get_or_create_monthly_budget st cat cur_start pmb.base_budget
          (r.1.base_budget, r.2)
    | none =>
        let r := get_or_create_monthly_budget st cat cur_start (cfg cat.name)
        (r.1.base_budget, r.2)
  let base_this_month := bres.1
  let cres := cumulative_carry_until cfg bres.2 cat cur_start
  let carry_in := cres.1
  let effective_budget := max 0 (base_this_month + carry_in)
  let spent := month_spend_for_category cres.2.purchases cat.id cur_start nxt_start
  let remaining := effective_budget - spent
  let pct : ℚ := if effective_budget ≤ 0 then 0 else spent / effective_budget * 100
  let over_by := max 0 (-remaining)
  ({ base := base_this_month, carry_in := carry_in, effective := effective_budget,
     spent := spent, remaining := remaining, pct := pct, over_by := over_by }, cres.2)

/-! ## Category ordering and year-to-date totals (src/main.py lines 123-155) -/

/-- `PREFERRED_ORDER` (src/main.py lines 145-151). -/
def PREFERRED_ORDER : List String :=
  ["Home Items", "Kendall\x27s Shopping", "Kevin\x27s Shopping", "Eating Out", "Groceries"]

/-- `order_index.get(c.name, 9999)` (src/main.py lines 154-155). -/
def order_index (name : String) : Nat :=
  match PREFERRED_ORDER.indexOf? name with
  | some i => i
  | none => 9999

/-- The sort key of `sort_categories`: `(order_index.get(c.name, 9999),
c.name.lower())`, compared lexicographically as Python compares tuples. -/
def catKeyLe (a b : Category) : Bool :=
  order_index a.name < order_index b.name
    || (order_index a.name == order_index b.name
        && (a.name.toLower ≤ b.name.toLower : Bool))

/-- `sort_categories` (src/main.py lines 153-155): stable sort by key. -/
def sort_categories (cats : List Category) : List Category :=
  cats.mergeSort catKeyLe

/-- `datetime(now_utc.year, 1, 1, tzinfo=utc)` (src/main.py line 130). -/
def start_of_year (now_utc : PyDateTime) : PyDateTime :=
  { year := now_utc.year, month := ⟨1, by omega⟩, day := 1,
    hour := 0, minute := 0, second := 0, microsecond := 0 }

/-- `ytd_totals` (src/main.py lines 123-139): per-category spend from
January 1st of `now_utc`'s year through `now_utc`, over the given category
table, plus the overall sum.  Rows are `(category, spent)` pairs. -/
def ytd_totals (st : DBState) (cats : List Category) (now_utc : PyDateTime)
    (active_only : Bool) : List (Category × ℚ) × ℚ :=
  let q := if active_only then cats.filter (fun c => c.is_active) else cats
  let sorted := sort_categories q
  let rows := sorted.map (fun c =>
    (c, month_spend_for_category st.purchases c.id (start_of_year now_utc) now_utc))
  let overall := rows.foldl (fun s r => s + r.2) 0
  (rows, overall)

/-! ## Concrete fixtures used by witnesses and counterexamples -/

/-- January 1 2024, 00:00 UTC. -/
def dJan2024 : PyDateTime := ⟨2024, ⟨1, by omega⟩, 1, 0, 0, 0, 0⟩

/-- February 1 2024, 00:00 UTC. -/
def dFeb2024 : PyDateTime := ⟨2024, ⟨2, by omega⟩, 1, 0, 0, 0, 0⟩

/-- March 1 2024, 00:00 UTC. -/
def dMar2024 : PyDateTime := ⟨2024, ⟨3, by omega⟩, 1, 0, 0, 0, 0⟩

/-- April 1 2024, 00:00 UTC. -/
def dApr2024 : PyDateTime := ⟨2024, ⟨4, by omega⟩, 1, 0, 0, 0, 0⟩

/-- December 1 2024, 00:00 UTC. -/
def dDec2024 : PyDateTime := ⟨2024, ⟨12, by omega⟩, 1, 0, 0, 0, 0⟩

/-- January 10 2024, 00:00 UTC (a mid-month instant). -/
def dJan2024_10 : PyDateTime := ⟨2024, ⟨1, by omega⟩, 10, 0, 0, 0, 0⟩

/-- February 10 2024, 00:00 UTC (a mid-month instant). -/
def dFeb2024_10 : PyDateTime := ⟨2024, ⟨2, by omega⟩, 10, 0, 0, 0, 0⟩

/-- March 10 2024, 00:00 UTC (a mid-month instant). -/
def dMar2024_10 : PyDateTime := ⟨2024, ⟨3, by omega⟩, 10, 0, 0, 0, 0⟩

/-- March 15 2024, 12:00 UTC (a mid-month instant). -/
def dMar2024_15 : PyDateTime := ⟨2024, ⟨3, by omega⟩, 15, 12, 0, 0, 0⟩

/-- The "Groceries" category used by the scenario fixtures. -/
def catGroceries : Category := ⟨1, "Groceries", true, 9999⟩

/-- Configuration giving Groceries a default base budget of 400. -/
def cfg400 : String → ℚ := fun s => if s = "Groceries" then 400 else 0


/-- The part of `current_month_summary` (src/main.py lines 107-121) downstream
of the base-budget resolution: it depends only on the resolved base and the
result of the carry walk. -/
def summary_from (cfg : String → ℚ) (cat : Category) (now_utc : PyDateTime)
    (base_this_month : ℚ) (cres : ℚ × DBState) : Summary × DBState :=
  let cur_start := py_month_start now_utc
  let nxt_start := next_month_start cur_start
  let carry_in := cres.1
  let effective_budget := max 0 (base_this_month + carry_in)
  let spent := month_spend_for_category cres.2.purchases cat.id cur_start nxt_start
  let remaining := effective_budget - spent
  let pct : ℚ := if effective_budget ≤ 0 then 0 else spent / effective_budget * 100
  let over_by := max 0 (-remaining)
  ({ base := base_this_month, carry_in := carry_in, effective := effective_budget,
     spent := spent, remaining := remaining, pct := pct, over_by := over_by }, cres.2)

/-! ## The start rule as the specification words it (for claim C1)

The spec says the walk starts at "the earlier of (month containing its first
purchase) and (month of its first explicit budget period)".  The code
(src/main.py line 76) instead evaluates `first_purchase_ts or first_budget_ts`,
which ignores the budget month whenever any purchase exists.  The following
pair of definitions follows the spec\'s words so the two behaviours can be
compared. -/

/-- The activity start month as the spec words it: the earlier of the month
of the first purchase and the month of the first budget period, normalized to
month-start. -/
def activity_start_per_spec (st : DBState) (cat : Category) : Option PyDateTime :=
  match first_purchase_ts st.purchases cat.id, first_budget_ts st.budgets cat.id with
  | none, none => none
  | some t, none => some (py_month_start t)
  | none, some tb => some (py_month_start tb)
  | some t, some tb =>
      some (if PyDateTime.ltb (py_month_start tb) (py_month_start t)
            then py_month_start tb else py_month_start t)

/-- `cumulative_carry_until` with its start month replaced by the spec\'s
"earlier of the two" rule; identical to the real function otherwise. -/
def cumulative_carry_until_per_spec (cfg : String → ℚ) (st : DBState)
    (cat : Category) (up_to_month_start : PyDateTime) : ℚ × DBState :=
  match activity_start_per_spec st cat with
  | none => (0, st)
  | some s => carry_loop cfg cat up_to_month_start s 0 st


/-! ## Order and calendar lemmas -/

theorem PyDateTime.ext_fields {a b : PyDateTime}
    (hy : a.year = b.year) (hm : a.month.val = b.month.val)
    (hd : a.day = b.day) (hh : a.hour = b.hour) (hmin : a.minute = b.minute)
    (hs : a.second = b.second) (hus : a.microsecond = b.microsecond) :
    a = b := by
  cases a; cases b
  simp only [mk.injEq]
  exact ⟨hy, Subtype.ext hm, hd, hh, hmin, hs, hus⟩

theorem PyDateTime.ltb_iff (a b : PyDateTime) :
    ltb a b = true ↔
      (a.year < b.year ∨ (a.year = b.year ∧
        (a.month.val < b.month.val ∨ (a.month.val = b.month.val ∧
          (a.day < b.day ∨ (a.day = b.day ∧
            (a.hour < b.hour ∨ (a.hour = b.hour ∧
              (a.minute < b.minute ∨ (a.minute = b.minute ∧
                (a.second < b.second ∨ (a.second = b.second ∧
                  a.microsecond < b.microsecond)))))))))))) := by
  unfold ltb
  split_ifs with h1 h2 h3 h4 h5 h6 <;> simp_all <;> omega

theorem PyDateTime.ltb_irrefl (a : PyDateTime) : ltb a a = false := by
  rw [← Bool.not_eq_true, ltb_iff]
  omega

theorem PyDateTime.ltb_trans {a b c : PyDateTime}
    (hab : ltb a b = true) (hbc : ltb b c = true) : ltb a c = true := by
  rw [ltb_iff] at hab hbc ⊢
  omega

theorem PyDateTime.eq_of_not_ltb {a b : PyDateTime}
    (hab : ltb a b = false) (hba : ltb b a = false) : a = b := by
  rw [← Bool.not_eq_true, ltb_iff] at hab hba
  exact ext_fields (by omega) (by omega) (by omega) (by omega) (by omega)
    (by omega) (by omega)

theorem PyDateTime.leb_iff (a b : PyDateTime) : leb a b = true ↔ ltb a b = true ∨ a = b := by
  simp [leb]

theorem PyDateTime.leb_refl (a : PyDateTime) : leb a a = true := by
  rw [leb_iff]; right; rfl

theorem PyDateTime.ltb_asymm {a b : PyDateTime} (h : ltb a b = true) : ltb b a = false := by
  rw [ltb_iff] at h
  rw [← Bool.not_eq_true, ltb_iff]
  omega

theorem isMonthStart_py_month_start (d : PyDateTime) :
    isMonthStart (py_month_start d) := by
  constructor <;> simp [py_month_start, isMonthStart]

theorem monthIdx_py_month_start (d : PyDateTime) :
    monthIdx (py_month_start d) = monthIdx d := rfl

theorem py_month_start_of_isMonthStart {d : PyDateTime} (h : isMonthStart d) :
    py_month_start d = d := by
  obtain ⟨h1, h2, h3, h4, h5⟩ := h
  exact PyDateTime.ext_fields rfl rfl h1.symm h2.symm h3.symm h4.symm h5.symm

theorem isMonthStart_next (d : PyDateTime) : isMonthStart (next_month_start d) := by
  unfold next_month_start
  split <;> constructor <;> simp

theorem monthIdx_next (d : PyDateTime) :
    monthIdx (next_month_start d) = monthIdx d + 1 := by
  have hm := d.month.property
  unfold next_month_start monthIdx
  split <;> simp_all <;> omega

theorem ltb_next (d : PyDateTime) :
    PyDateTime.ltb d (next_month_start d) = true := by
  have hm := d.month.property
  rw [PyDateTime.ltb_iff]
  unfold next_month_start
  split <;> simp <;> omega

theorem monthIdx_le_of_ltb {a b : PyDateTime}
    (h : PyDateTime.ltb a b = true) : monthIdx a ≤ monthIdx b := by
  have ha := a.month.property
  have hb := b.month.property
  rw [PyDateTime.ltb_iff] at h
  unfold monthIdx
  omega

theorem ltb_iff_monthIdx {a b : PyDateTime}
    (ha : isMonthStart a) (hb : isMonthStart b) :
    PyDateTime.ltb a b = true ↔ monthIdx a < monthIdx b := by
  have hma := a.month.property
  have hmb := b.month.property
  obtain ⟨a1, a2, a3, a4, a5⟩ := ha
  obtain ⟨b1, b2, b3, b4, b5⟩ := hb
  rw [PyDateTime.ltb_iff]
  unfold monthIdx
  omega

theorem eq_of_monthIdx_eq {a b : PyDateTime}
    (ha : isMonthStart a) (hb : isMonthStart b)
    (h : monthIdx a = monthIdx b) : a = b := by
  have hma := a.month.property
  have hmb := b.month.property
  obtain ⟨a1, a2, a3, a4, a5⟩ := ha
  obtain ⟨b1, b2, b3, b4, b5⟩ := hb
  unfold monthIdx at h
  exact PyDateTime.ext_fields (by omega) (by omega) (by omega) (by omega) (by omega)
    (by omega) (by omega)

/-! ## The while-loop unfolding

`carry_loop_eq` recovers the exact `while cur < up_to_month_start` unfolding
of src/main.py lines 79-92 from the fuelled definition: the fuel passed by
`carry_loop` can never run out while the guard holds. -/

theorem carry_loop_eq (cfg : String → ℚ) (cat : Category) (up_to cur : PyDateTime)
    (carry : ℚ) (st : DBState) :
    carry_loop cfg cat up_to cur carry st =
      if PyDateTime.ltb cur up_to then
        carry_loop cfg cat up_to (next_month_start cur)
          (carry + ((resolve_month_budget cfg st cat cur).1.base_budget
            - month_spend_for_category st.purchases cat.id cur (next_month_start cur)))
          (resolve_month_budget cfg st cat cur).2
      else (carry, st) := by
  unfold carry_loop
  rcases hn : monthIdx up_to + 1 - monthIdx cur with _ | n
  · cases hg : PyDateTime.ltb cur up_to
    · simp [carry_go, hg]
    · exact absurd (monthIdx_le_of_ltb hg) (by omega)
  · cases hg : PyDateTime.ltb cur up_to
    · simp [carry_go, hg]
    · have hnext : monthIdx up_to + 1 - monthIdx (next_month_start cur) = n := by
        rw [monthIdx_next]; omega
      simp only [carry_go, hg, if_pos, hnext]

/-! ## C5: the effective budget is floored at zero -/

/-- C5: for every configuration, database state, category and now-instant,
the summary's effective budget equals `max 0 (base + carry_in)` and is
therefore never negative, however negative the carry is. -/
theorem C5_effective_is_floored_max (cfg : String → ℚ) (st : DBState)
    (cat : Category) (now_utc : PyDateTime) :
    (current_month_summary cfg st cat now_utc).1.effective
        = max 0 ((current_month_summary cfg st cat now_utc).1.base
            + (current_month_summary cfg st cat now_utc).1.carry_in)
      ∧ 0 ≤ (current_month_summary cfg st cat now_utc).1.effective :=
  ⟨rfl, le_max_left _ _⟩

/-! ## C8: the percent-used guard -/

/-- C8: the percent-used computation never divides by zero: whenever the
effective budget is ≤ 0 the pct is 0, and otherwise it is
`spent / effective * 100`; the division only happens under the `effective > 0`
guard. -/
theorem C8_pct_guarded (cfg : String → ℚ) (st : DBState)
    (cat : Category) (now_utc : PyDateTime) :
    ((current_month_summary cfg st cat now_utc).1.effective ≤ 0 →
        (current_month_summary cfg st cat now_utc).1.pct = 0)
      ∧ (0 < (current_month_summary cfg st cat now_utc).1.effective →
        (current_month_summary cfg st cat now_utc).1.pct
          = (current_month_summary cfg st cat now_utc).1.spent
              / (current_month_summary cfg st cat now_utc).1.effective * 100) := by
  have hpct : (current_month_summary cfg st cat now_utc).1.pct
      = if (current_month_summary cfg st cat now_utc).1.effective ≤ 0 then 0
        else (current_month_summary cfg st cat now_utc).1.spent
              / (current_month_summary cfg st cat now_utc).1.effective * 100 := rfl
  constructor
  · intro h; rw [hpct, if_pos h]
  · intro h; rw [hpct, if_neg (not_le.mpr h)]

/-- C8 witness: at the concrete month-2 scenario state the effective budget is
positive and pct is spent/effective·100. -/
theorem C8_pct_guarded_witness :
    (current_month_summary cfg400 ⟨[], [⟨1, "a", 350, dJan2024_10⟩, ⟨1, "b", 500, dFeb2024_10⟩]⟩
        catGroceries dFeb2024_10).1.pct
      = (current_month_summary cfg400 ⟨[], [⟨1, "a", 350, dJan2024_10⟩, ⟨1, "b", 500, dFeb2024_10⟩]⟩
          catGroceries dFeb2024_10).1.spent
        / (current_month_summary cfg400 ⟨[], [⟨1, "a", 350, dJan2024_10⟩, ⟨1, "b", 500, dFeb2024_10⟩]⟩
            catGroceries dFeb2024_10).1.effective * 100 :=
  (C8_pct_guarded cfg400 ⟨[], [⟨1, "a", 350, dJan2024_10⟩, ⟨1, "b", 500, dFeb2024_10⟩]⟩
      catGroceries dFeb2024_10).2 (by
    norm_num [current_month_summary, cumulative_carry_until, first_activity,
      first_purchase_ts, first_budget_ts, Option.orElse, py_month_start, carry_loop,
      monthIdx, carry_go, PyDateTime.ltb, PyDateTime.leb, resolve_month_budget,
      most_recent_budget_on_or_before, get_or_create_monthly_budget, findBudget,
      month_spend_for_category, next_month_start, List.filter, List.foldl, List.find?,
      instBEqOfDecidableEq, BEq.beq, PyDateTime.mk.injEq, Subtype.mk.injEq,
      MonthlyBudget.mk.injEq, cfg400, catGroceries, dJan2024_10, dFeb2024_10])

/-! ## C10: the cursor strictly increases, so the walk terminates -/

/-- C10: for every month-start `m`, `next_month_start m` is strictly greater
than `m` (the December case rolls over to January 1 of the next year), and
whenever the while-guard `cur < up_to` of `cumulative_carry_until` holds the
measure `monthIdx up_to + 1 - monthIdx cur` strictly decreases when the
cursor advances to `next_month_start cur`; hence the walk terminates after
finitely many steps for every target month. -/
theorem C10_walk_terminates :
    (∀ m : PyDateTime, isMonthStart m → PyDateTime.ltb m (next_month_start m) = true)
      ∧ (∀ cur up_to : PyDateTime, PyDateTime.ltb cur up_to = true →
          monthIdx up_to + 1 - monthIdx (next_month_start cur)
            < monthIdx up_to + 1 - monthIdx cur) := by
  constructor
  · intro m _; exact ltb_next m
  · intro cur up_to h
    have h1 := monthIdx_le_of_ltb h
    have h2 := monthIdx_next cur
    omega

/-- C10 witness: the December rollover instance — December 2024 is strictly
below January 2025 and the measure for a January 2025 target decreases. -/
theorem C10_walk_terminates_witness :
    PyDateTime.ltb dDec2024 (next_month_start dDec2024) = true
      ∧ monthIdx (next_month_start dDec2024) + 1 - monthIdx (next_month_start dDec2024)
          < monthIdx (next_month_start dDec2024) + 1 - monthIdx dDec2024 :=
  ⟨C10_walk_terminates.1 dDec2024 (by decide),
   C10_walk_terminates.2 dDec2024 (next_month_start dDec2024) (by decide)⟩

/-! ## C1 (corrected): where the walk actually starts -/

/-- C1 counterexample: a category whose first budget period (January 2024,
base 100) precedes its first purchase (March 15 2024).  The claim says the
walk starts at the budget period's month, i.e. behaves like
`cumulative_carry_until_per_spec` (which yields 100+100+100 = 300 for an
April target); the code starts at the purchase's month and yields 100. -/
theorem C1_start_month_counterexample :
    PyDateTime.ltb (py_month_start dJan2024) (py_month_start dMar2024_15) = true
      ∧ (cumulative_carry_until (fun _ => 0)
          ⟨[⟨1, dJan2024, 100⟩], [⟨1, "x", 0, dMar2024_15⟩]⟩ catGroceries dApr2024).1 = 100
      ∧ (cumulative_carry_until_per_spec (fun _ => 0)
          ⟨[⟨1, dJan2024, 100⟩], [⟨1, "x", 0, dMar2024_15⟩]⟩ catGroceries dApr2024).1 = 300
      ∧ (cumulative_carry_until (fun _ => 0)
            ⟨[⟨1, dJan2024, 100⟩], [⟨1, "x", 0, dMar2024_15⟩]⟩ catGroceries dApr2024).1
        ≠ (cumulative_carry_until_per_spec (fun _ => 0)
            ⟨[⟨1, dJan2024, 100⟩], [⟨1, "x", 0, dMar2024_15⟩]⟩ catGroceries dApr2024).1 := by
  refine ⟨by decide, ?_, ?_, ?_⟩ <;>
    norm_num [cumulative_carry_until, cumulative_carry_until_per_spec,
      activity_start_per_spec, first_activity, first_purchase_ts, first_budget_ts,
      Option.orElse, py_month_start, carry_loop, monthIdx, carry_go, PyDateTime.ltb,
      PyDateTime.leb, resolve_month_budget, most_recent_budget_on_or_before,
      get_or_create_monthly_budget, findBudget, month_spend_for_category,
      next_month_start, List.filter, List.foldl, List.find?, instBEqOfDecidableEq,
      BEq.beq, PyDateTime.mk.injEq, Subtype.mk.injEq, MonthlyBudget.mk.injEq,
      catGroceries, dJan2024, dMar2024_15, dApr2024]

/-- C1 (amended): the walk of `cumulative_carry_until` starts at the month of
the category's first purchase whenever the category has any purchase — even
when its first budget period's month is earlier — and only for a category
with no purchases does it start at the month of its first budget period. -/
theorem C1_amended_start_month (cfg : String → ℚ) (st : DBState) (cat : Category)
    (up_to : PyDateTime) :
    (∀ t, first_purchase_ts st.purchases cat.id = some t →
        cumulative_carry_until cfg st cat up_to
          = carry_loop cfg cat up_to (py_month_start t) 0 st)
      ∧ (first_purchase_ts st.purchases cat.id = none →
          ∀ tb, first_budget_ts st.budgets cat.id = some tb →
            cumulative_carry_until cfg st cat up_to
              = carry_loop cfg cat up_to (py_month_start tb) 0 st) := by
  constructor
  · intro t ht
    simp [cumulative_carry_until, first_activity, ht, Option.orElse]
  · intro hp tb htb
    simp [cumulative_carry_until, first_activity, hp, htb, Option.orElse]

/-- C1 amended witness: on the counterexample state the first purchase is the
March 15 one, so the walk starts at March 2024. -/
theorem C1_amended_start_month_witness :
    first_purchase_ts (⟨[⟨1, dJan2024, 100⟩], [⟨1, "x", 0, dMar2024_15⟩]⟩ : DBState).purchases
        catGroceries.id = some dMar2024_15
      ∧ cumulative_carry_until (fun _ => 0)
            ⟨[⟨1, dJan2024, 100⟩], [⟨1, "x", 0, dMar2024_15⟩]⟩ catGroceries dApr2024
          = carry_loop (fun _ => 0) catGroceries dApr2024 (py_month_start dMar2024_15) 0
              ⟨[⟨1, dJan2024, 100⟩], [⟨1, "x", 0, dMar2024_15⟩]⟩ :=
  ⟨by decide,
   (C1_amended_start_month (fun _ => 0)
      ⟨[⟨1, dJan2024, 100⟩], [⟨1, "x", 0, dMar2024_15⟩]⟩ catGroceries dApr2024).1
     dMar2024_15 (by decide)⟩

/-! ## C4: the Groceries end-to-end scenario -/

/-- The scenario ledger: Groceries purchases of 350 in January 2024 and 500
in February 2024, no budget rows. -/
def st_scenario : DBState := ⟨[], [⟨1, "a", 350, dJan2024_10⟩, ⟨1, "b", 500, dFeb2024_10⟩]⟩

/-- C4: with default base 400 and no explicit periods, spending 350 in month 1
and 500 in month 2 gives carry 50 into month 2; the month-2 summary has base
400 (propagated), effective 450, remaining −50, over_by 50; and the month-3
summary (computed from the state the month-2 summary left behind) has
effective budget max(0, 400 + (50 + (400 − 500))) = 350. -/
theorem C4_groceries_scenario :
    (cumulative_carry_until cfg400 st_scenario catGroceries dFeb2024).1 = 50
      ∧ (current_month_summary cfg400 st_scenario catGroceries dFeb2024_10).1.base = 400
      ∧ (current_month_summary cfg400 st_scenario catGroceries dFeb2024_10).1.effective = 450
      ∧ (current_month_summary cfg400 st_scenario catGroceries dFeb2024_10).1.remaining = -50
      ∧ (current_month_summary cfg400 st_scenario catGroceries dFeb2024_10).1.over_by = 50
      ∧ (current_month_summary cfg400
            (current_month_summary cfg400 st_scenario catGroceries dFeb2024_10).2
            catGroceries dMar2024_10).1.effective = 350 := by
  refine ⟨?_, ?_, ?_, ?_, ?_, ?_⟩ <;>
    norm_num [current_month_summary, cumulative_carry_until, first_activity,
      first_purchase_ts, first_budget_ts, Option.orElse, py_month_start, carry_loop,
      monthIdx, carry_go, PyDateTime.ltb, PyDateTime.leb, resolve_month_budget,
      most_recent_budget_on_or_before, get_or_create_monthly_budget, findBudget,
      month_spend_for_category, next_month_start, List.filter, List.foldl, List.find?,
      instBEqOfDecidableEq, BEq.beq, PyDateTime.mk.injEq, Subtype.mk.injEq,
      MonthlyBudget.mk.injEq, cfg400, catGroceries, st_scenario,
      dJan2024_10, dFeb2024_10, dMar2024_10, dFeb2024]

/-! ## C7: an untouched base propagates across empty months -/

/-- C7: for a category whose store holds exactly one budget period with base
`B` at month-start `M` and no purchases, `cumulative_carry_until` returns `B`
for target `M+1` and `2·B` for target `M+2`: the base propagates unchanged
across months with no explicit entry and no spend. -/
theorem C7_single_period_base_propagates (cfg : String → ℚ) (cat : Category) (B : ℚ)
    (M : PyDateTime) (hM : isMonthStart M) :
    (cumulative_carry_until cfg ⟨[⟨cat.id, M, B⟩], []⟩ cat (next_month_start M)).1 = B
      ∧ (cumulative_carry_until cfg ⟨[⟨cat.id, M, B⟩], []⟩ cat
          (next_month_start (next_month_start M))).1 = 2 * B := by
  have hact : first_activity ⟨[⟨cat.id, M, B⟩], []⟩ cat = some M := by
    simp [first_activity, first_purchase_ts, first_budget_ts, Option.orElse,
      List.filter, List.foldl]
  have hne : M ≠ next_month_start M := by
    intro he
    have h2 := monthIdx_next M
    rw [← he] at h2
    omega
  have hmr1 : most_recent_budget_on_or_before [⟨cat.id, M, B⟩] cat.id M
      = some ⟨cat.id, M, B⟩ := by
    simp [most_recent_budget_on_or_before, List.filter, List.foldl, PyDateTime.leb_refl]
  have hmr2 : most_recent_budget_on_or_before [⟨cat.id, M, B⟩] cat.id (next_month_start M)
      = some ⟨cat.id, M, B⟩ := by
    simp [most_recent_budget_on_or_before, List.filter, List.foldl, PyDateTime.leb,
      ltb_next M]
  have hres1 : resolve_month_budget cfg ⟨[⟨cat.id, M, B⟩], []⟩ cat M
      = (⟨cat.id, M, B⟩, ⟨[⟨cat.id, M, B⟩], []⟩) := by
    simp [resolve_month_budget, hmr1, get_or_create_monthly_budget, findBudget,
      List.find?]
  have hbeq : (M == next_month_start M) = false := beq_eq_false_iff_ne.mpr hne
  have hres2 : resolve_month_budget cfg ⟨[⟨cat.id, M, B⟩], []⟩ cat (next_month_start M)
      = (⟨cat.id, next_month_start M, B⟩,
         ⟨[⟨cat.id, M, B⟩, ⟨cat.id, next_month_start M, B⟩], []⟩) := by
    simp [resolve_month_budget, hmr2, get_or_create_monthly_budget, findBudget,
      List.find?, hbeq]
  have hspend : ∀ a b : PyDateTime,
      month_spend_for_category ([] : List Purchase) cat.id a b = 0 := by
    intro a b; simp [month_spend_for_category]
  constructor
  · simp only [cumulative_carry_until, hact, py_month_start_of_isMonthStart hM]
    rw [carry_loop_eq]
    rw [if_pos (ltb_next M)]
    rw [carry_loop_eq]
    rw [if_neg (by rw [PyDateTime.ltb_irrefl]; exact Bool.false_ne_true)]
    simp [hres1, hspend]
  · simp only [cumulative_carry_until, hact, py_month_start_of_isMonthStart hM]
    rw [carry_loop_eq]
    rw [if_pos (by
      rw [ltb_iff_monthIdx hM (isMonthStart_next (next_month_start M))]
      simp only [monthIdx_next]; omega)]
    simp only [hres1, hspend]
    rw [carry_loop_eq]
    rw [if_pos (by
      rw [ltb_iff_monthIdx (isMonthStart_next M) (isMonthStart_next (next_month_start M))]
      simp only [monthIdx_next]; omega)]
    simp only [hres2, hspend]
    rw [carry_loop_eq]
    rw [if_neg (by rw [PyDateTime.ltb_irrefl]; exact Bool.false_ne_true)]
    ring_nf

/-- C7 witness: base 77 at February 2024. -/
theorem C7_single_period_base_propagates_witness :
    (cumulative_carry_until (fun _ => 0) ⟨[⟨1, dFeb2024, 77⟩], []⟩ catGroceries
        (next_month_start dFeb2024)).1 = 77
      ∧ (cumulative_carry_until (fun _ => 0) ⟨[⟨1, dFeb2024, 77⟩], []⟩ catGroceries
          (next_month_start (next_month_start dFeb2024))).1 = 2 * 77 := by
  have h := C7_single_period_base_propagates (fun _ => 0) catGroceries 77 dFeb2024
    (by decide)
  exact h

/-! ## C9: year-to-date totals -/

/-- Folding `(s, r) ↦ s + r.2` over rows equals the sum of the row values. -/
theorem foldl_add_snd (l : List (Category × ℚ)) (a : ℚ) :
    l.foldl (fun s r => s + r.2) a = a + (l.map (fun r => r.2)).sum := by
  induction l generalizing a with
  | nil => simp
  | cons x xs ih => simp [ih, add_assoc]

/-- C9: the overall value returned by `ytd_totals` equals the sum over the
returned rows; each row's value is that category's purchase total from
January 1st 00:00 UTC of `now`'s year to `now`; and the overall sum is
invariant under any reordering of the category table. -/
theorem C9_ytd_overall_is_sum_and_perm_invariant (st : DBState) (cats : List Category) (now_utc : PyDateTime)
    (active_only : Bool) :
    (ytd_totals st cats now_utc active_only).2
        = ((ytd_totals st cats now_utc active_only).1.map (fun r => r.2)).sum
      ∧ (∀ r ∈ (ytd_totals st cats now_utc active_only).1,
          r.2 = month_spend_for_category st.purchases r.1.id
            (start_of_year now_utc) now_utc)
      ∧ (∀ cats' : List Category, List.Perm cats' cats →
          (ytd_totals st cats' now_utc active_only).2
            = (ytd_totals st cats now_utc active_only).2) := by
  refine ⟨?_, ?_, ?_⟩
  · simp only [ytd_totals]
    rw [foldl_add_snd, zero_add]
  · intro r hr
    simp only [ytd_totals, List.mem_map] at hr
    obtain ⟨c, _, rfl⟩ := hr
    rfl
  · intro cats' hperm
    simp only [ytd_totals]
    rw [foldl_add_snd, foldl_add_snd, zero_add, zero_add]
    have hq : List.Perm (if active_only then cats'.filter (fun c => c.is_active) else cats')
        (if active_only then cats.filter (fun c => c.is_active) else cats) := by
      cases active_only
      · simpa using hperm
      · simpa using hperm.filter _
    have hsort : List.Perm
        (sort_categories (if active_only then cats'.filter (fun c => c.is_active) else cats'))
        (sort_categories (if active_only then cats.filter (fun c => c.is_active) else cats)) :=
      ((List.mergeSort_perm _ _).trans hq).trans (List.mergeSort_perm _ _).symm
    exact List.Perm.sum_eq (List.Perm.map _ (List.Perm.map _ hsort))

/-- The "Eating Out" category used by the C9 witness. -/
def catEatingOut : Category := ⟨2, "Eating Out", true, 9999⟩

/-- C9 witness: on a two-category table, swapping the categories leaves the
overall year-to-date total unchanged. -/
theorem C9_ytd_overall_is_sum_and_perm_invariant_witness :
    (ytd_totals st_scenario [catEatingOut, catGroceries] dMar2024_10 false).2
      = (ytd_totals st_scenario [catGroceries, catEatingOut] dMar2024_10 false).2 :=
  (C9_ytd_overall_is_sum_and_perm_invariant st_scenario [catGroceries, catEatingOut]
      dMar2024_10 false).2.2 [catEatingOut, catGroceries] (by decide)

/-! ## Machinery: the uniqueness constraint and the schedule queries -/

/-- Two budget rows of the same category and month in a unique store are the
same row. -/
theorem uniqueBudgets_eq {bs : List MonthlyBudget} (hU : UniqueBudgets bs)
    {a b : MonthlyBudget} (ha : a ∈ bs) (hb : b ∈ bs)
    (hcid : a.category_id = b.category_id) (hm : a.month_start = b.month_start) :
    a = b := by
  by_cases hab : a = b
  · exact hab
  · have hsym : Symmetric (fun a b : MonthlyBudget =>
        ¬(a.category_id = b.category_id ∧ a.month_start = b.month_start)) :=
      fun x y hxy hyx => hxy ⟨hyx.1.symm, hyx.2.symm⟩
    exact absurd ⟨hcid, hm⟩ (List.Pairwise.forall hsym hU ha hb hab)

/-- What a successful `findBudget` lookup returns. -/
theorem findBudget_matches {bs : List MonthlyBudget} {cid : Nat}
    {mstart : PyDateTime} {mb : MonthlyBudget}
    (h : findBudget bs cid mstart = some mb) :
    mb ∈ bs ∧ mb.category_id = cid ∧ mb.month_start = mstart := by
  unfold findBudget at h
  have hp := List.find?_some h
  simp only [Bool.and_eq_true, beq_iff_eq] at hp
  exact ⟨List.mem_of_find?_eq_some h, hp.1, hp.2⟩

/-- In a unique store, `findBudget` finds exactly the row that is present. -/
theorem findBudget_eq_some {bs : List MonthlyBudget} {cid : Nat} {m : PyDateTime}
    {mb : MonthlyBudget} (hU : UniqueBudgets bs) (hmem : mb ∈ bs)
    (hcid : mb.category_id = cid) (hm : mb.month_start = m) :
    findBudget bs cid m = some mb := by
  cases hf : findBudget bs cid m with
  | none =>
      exfalso
      unfold findBudget at hf
      have hall := List.find?_eq_none.mp hf mb hmem
      simp [hcid, hm] at hall
  | some x =>
      obtain ⟨hx, hxc, hxm⟩ := findBudget_matches hf
      rw [uniqueBudgets_eq hU hx hmem (hxc.trans hcid.symm) (hxm.trans hm.symm)]

/-- The accumulator step of the `ORDER BY month_start DESC … first()` fold. -/
theorem foldl_pick_spec :
    ∀ (l : List MonthlyBudget) (acc : Option MonthlyBudget) (r : MonthlyBudget),
      l.foldl (fun acc mb =>
        match acc with
        | none => some mb
        | some best =>
            if PyDateTime.ltb best.month_start mb.month_start then some mb else acc)
        acc = some r →
      (acc = some r ∨ r ∈ l)
        ∧ (∀ x ∈ l, PyDateTime.ltb r.month_start x.month_start = false)
        ∧ (∀ a, acc = some a → PyDateTime.ltb r.month_start a.month_start = false) := by
  intro l
  induction l with
  | nil =>
      intro acc r h
      refine ⟨Or.inl h, by simp, ?_⟩
      intro a ha
      rw [ha] at h
      cases h
      exact PyDateTime.ltb_irrefl _
  | cons x tl ih =>
      intro acc r h
      simp only [List.foldl_cons] at h
      obtain ⟨h1, h2, h3⟩ := ih _ r h
      have hx : PyDateTime.ltb r.month_start x.month_start = false := by
        cases acc with
        | none => exact h3 x rfl
        | some best =>
            by_cases hbx : PyDateTime.ltb best.month_start x.month_start = true
            · exact h3 x (by simp [hbx])
            · have hbx' : PyDateTime.ltb best.month_start x.month_start = false :=
                Bool.eq_false_iff.mpr hbx
              have hrb := h3 best (by simp [hbx'])
              cases hrx : PyDateTime.ltb r.month_start x.month_start with
              | false => rfl
              | true =>
                  exfalso
                  cases hbr : PyDateTime.ltb best.month_start r.month_start with
                  | true =>
                      exact hbx (PyDateTime.ltb_trans hbr hrx)
                  | false =>
                      have := PyDateTime.eq_of_not_ltb hrb hbr
                      rw [this] at hrx
                      exact hbx hrx
      refine ⟨?_, ?_, ?_⟩
      · rcases h1 with h1 | h1
        · cases acc with
          | none =>
              simp at h1
              exact Or.inr (by rw [← h1]; exact List.mem_cons_self x tl)
          | some best =>
              by_cases hbx : PyDateTime.ltb best.month_start x.month_start = true
              · simp [hbx] at h1
                exact Or.inr (by rw [← h1]; exact List.mem_cons_self x tl)
              · simp [Bool.eq_false_iff.mpr hbx] at h1
                exact Or.inl (by rw [h1])
        · exact Or.inr (List.mem_cons_of_mem x h1)
      · intro y hy
        rcases List.mem_cons.mp hy with hy | hy
        · rw [hy]; exact hx
        · exact h2 y hy
      · intro a ha
        rw [ha] at h
        cases hax : PyDateTime.ltb a.month_start x.month_start with
        | true =>
            have hrx := h3 x (by rw [ha]; simp [hax])
            cases hra : PyDateTime.ltb r.month_start a.month_start with
            | false => rfl
            | true => exact absurd (PyDateTime.ltb_trans hra hax) (by rw [hrx]; simp)
        | false =>
            exact h3 a (by rw [ha]; simp [hax])

/-- A `foldl` of the pick step only returns `none` when it starts from `none`
on an empty candidate list. -/
theorem foldl_pick_eq_none :
    ∀ (l : List MonthlyBudget) (acc : Option MonthlyBudget),
      l.foldl (fun acc mb =>
        match acc with
        | none => some mb
        | some best =>
            if PyDateTime.ltb best.month_start mb.month_start then some mb else acc)
        acc = none →
      acc = none ∧ l = [] := by
  intro l
  induction l with
  | nil => intro acc h; exact ⟨h, rfl⟩
  | cons x tl ih =>
      intro acc h
      simp only [List.foldl_cons] at h
      have := (ih _ h).1
      exfalso
      cases acc with
      | none => simp at this
      | some best =>
          by_cases hbx : PyDateTime.ltb best.month_start x.month_start = true
          · simp [hbx] at this
          · simp [Bool.eq_false_iff.mpr hbx] at this

/-- What a successful most-recent-on-or-before query returns: a row of the
category, at or before `cur`, and no candidate row is strictly later. -/
theorem most_recent_spec {bs : List MonthlyBudget} {cid : Nat} {cur : PyDateTime}
    {r : MonthlyBudget} (h : most_recent_budget_on_or_before bs cid cur = some r) :
    r ∈ bs ∧ r.category_id = cid ∧ PyDateTime.leb r.month_start cur = true
      ∧ ∀ x ∈ bs, x.category_id = cid → PyDateTime.leb x.month_start cur = true →
          PyDateTime.ltb r.month_start x.month_start = false := by
  unfold most_recent_budget_on_or_before at h
  obtain ⟨h1, h2, _⟩ := foldl_pick_spec _ _ _ h
  rcases h1 with h1 | h1
  · cases h1
  · have hr := List.mem_filter.mp h1
    simp only [Bool.and_eq_true, beq_iff_eq] at hr
    refine ⟨hr.1, hr.2.1, hr.2.2, ?_⟩
    intro x hxmem hxc hxle
    exact h2 x (List.mem_filter.mpr ⟨hxmem, by simp [hxc, hxle]⟩)

/-- In a unique store, querying at the exact month of a present row returns
that row. -/
theorem most_recent_exact {bs : List MonthlyBudget} {cid : Nat}
    {mb : MonthlyBudget} (hU : UniqueBudgets bs) (hmem : mb ∈ bs)
    (hcid : mb.category_id = cid) :
    most_recent_budget_on_or_before bs cid mb.month_start = some mb := by
  cases h : most_recent_budget_on_or_before bs cid mb.month_start with
  | none =>
      exfalso
      unfold most_recent_budget_on_or_before at h
      have := (foldl_pick_eq_none _ _ h).2
      have hmb : mb ∈ bs.filter (fun x =>
          x.category_id == cid && PyDateTime.leb x.month_start mb.month_start) :=
        List.mem_filter.mpr ⟨hmem, by simp [hcid, PyDateTime.leb_refl]⟩
      rw [this] at hmb
      cases hmb
  | some r =>
      obtain ⟨hrmem, hrc, hrle, hrmax⟩ := most_recent_spec h
      have hnot := hrmax mb hmem hcid (PyDateTime.leb_refl _)
      rcases (PyDateTime.leb_iff _ _).mp hrle with hlt | heq
      · rw [hlt] at hnot; cases hnot
      · rw [uniqueBudgets_eq hU hrmem hmem (hrc.trans hcid.symm) heq]

/-! ## Machinery: properties of `get_or_create_monthly_budget` and
`resolve_month_budget` -/

/-- `get_or_create_monthly_budget` never touches the purchase table. -/
theorem goc_purchases (st : DBState) (cat : Category) (m : PyDateTime) (d : ℚ) :
    (get_or_create_monthly_budget st cat m d).2.purchases = st.purchases := by
  unfold get_or_create_monthly_budget
  cases findBudget st.budgets cat.id m <;> rfl

/-- The row returned by `get_or_create_monthly_budget` carries the requested
category and month. -/
theorem goc_fst (st : DBState) (cat : Category) (m : PyDateTime) (d : ℚ) :
    (get_or_create_monthly_budget st cat m d).1.category_id = cat.id
      ∧ (get_or_create_monthly_budget st cat m d).1.month_start = m := by
  unfold get_or_create_monthly_budget
  cases hf : findBudget st.budgets cat.id m with
  | none => exact ⟨rfl, rfl⟩
  | some mb =>
      obtain ⟨_, h1, h2⟩ := findBudget_matches hf
      exact ⟨h1, h2⟩

/-- `get_or_create_monthly_budget` appends at most one row, and any appended
row is the returned one, for the requested category and month. -/
theorem goc_budgets (st : DBState) (cat : Category) (m : PyDateTime) (d : ℚ) :
    ∃ e, (get_or_create_monthly_budget st cat m d).2.budgets = st.budgets ++ e
      ∧ ∀ x ∈ e, x = (get_or_create_monthly_budget st cat m d).1 := by
  unfold get_or_create_monthly_budget
  cases findBudget st.budgets cat.id m with
  | none => exact ⟨[⟨cat.id, m, d⟩], rfl, by simp⟩
  | some mb => exact ⟨[], by simp, by simp⟩

/-- The returned row is in the resulting store. -/
theorem goc_mem (st : DBState) (cat : Category) (m : PyDateTime) (d : ℚ) :
    (get_or_create_monthly_budget st cat m d).1
      ∈ (get_or_create_monthly_budget st cat m d).2.budgets := by
  unfold get_or_create_monthly_budget
  cases hf : findBudget st.budgets cat.id m with
  | none => simp
  | some mb => exact (findBudget_matches hf).1

/-- `get_or_create_monthly_budget` preserves the uniqueness constraint. -/
theorem goc_unique (st : DBState) (cat : Category) (m : PyDateTime) (d : ℚ)
    (hU : UniqueBudgets st.budgets) :
    UniqueBudgets (get_or_create_monthly_budget st cat m d).2.budgets := by
  unfold get_or_create_monthly_budget
  cases hf : findBudget st.budgets cat.id m with
  | some mb => exact hU
  | none =>
      unfold UniqueBudgets
      rw [List.pairwise_append]
      refine ⟨hU, by simp, ?_⟩
      intro a ha b hb hab
      unfold findBudget at hf
      have := List.find?_eq_none.mp hf a ha
      simp only [List.mem_singleton] at hb
      rw [hb] at hab
      simp only [Bool.and_eq_true, beq_iff_eq, not_and] at this
      exact this (hab.1.trans rfl) (hab.2.trans rfl)

/-- `get_or_create_monthly_budget` keeps every row's month a month start when
the requested month is one. -/
theorem goc_monthstarts (st : DBState) (cat : Category) (m : PyDateTime) (d : ℚ)
    (hMS : MonthStartBudgets st.budgets) (hm : isMonthStart m) :
    MonthStartBudgets (get_or_create_monthly_budget st cat m d).2.budgets := by
  unfold get_or_create_monthly_budget
  cases findBudget st.budgets cat.id m with
  | some mb => exact hMS
  | none =>
      intro x hx
      rcases List.mem_append.mp hx with hx | hx
      · exact hMS x hx
      · simp only [List.mem_singleton] at hx
        rw [hx]
        exact hm

/-- Repeated `get_or_create_monthly_budget` with the same key returns the
stored row and ignores the new default (claim C6, second half). -/
theorem goc_idempotent (st : DBState) (cat : Category) (m : PyDateTime) (d d' : ℚ) :
    get_or_create_monthly_budget (get_or_create_monthly_budget st cat m d).2 cat m d'
      = ((get_or_create_monthly_budget st cat m d).1,
         (get_or_create_monthly_budget st cat m d).2) := by
  unfold get_or_create_monthly_budget
  cases hf : findBudget st.budgets cat.id m with
  | some mb => simp [hf]
  | none =>
      simp only
      have : findBudget (st.budgets ++ [(⟨cat.id, m, d⟩ : MonthlyBudget)]) cat.id m
          = some ⟨cat.id, m, d⟩ := by
        unfold findBudget at hf ⊢
        rw [List.find?_append, hf]
        simp
      rw [this]

/-- `resolve_month_budget` never touches the purchase table. -/
theorem resolve_purchases (cfg : String → ℚ) (st : DBState) (cat : Category)
    (cur : PyDateTime) :
    (resolve_month_budget cfg st cat cur).2.purchases = st.purchases := by
  unfold resolve_month_budget
  cases most_recent_budget_on_or_before st.budgets cat.id cur <;>
    apply goc_purchases

/-- The row `resolve_month_budget` returns carries the walked month and the
walked category. -/
theorem resolve_fst (cfg : String → ℚ) (st : DBState) (cat : Category)
    (cur : PyDateTime) :
    (resolve_month_budget cfg st cat cur).1.category_id = cat.id
      ∧ (resolve_month_budget cfg st cat cur).1.month_start = cur := by
  unfold resolve_month_budget
  cases most_recent_budget_on_or_before st.budgets cat.id cur <;>
    apply goc_fst

/-- `resolve_month_budget` appends at most one row, the returned one. -/
theorem resolve_budgets (cfg : String → ℚ) (st : DBState) (cat : Category)
    (cur : PyDateTime) :
    ∃ e, (resolve_month_budget cfg st cat cur).2.budgets = st.budgets ++ e
      ∧ ∀ x ∈ e, x = (resolve_month_budget cfg st cat cur).1 := by
  unfold resolve_month_budget
  cases most_recent_budget_on_or_before st.budgets cat.id cur <;>
    apply goc_budgets

/-- The row `resolve_month_budget` returns is in the resulting store. -/
theorem resolve_mem (cfg : String → ℚ) (st : DBState) (cat : Category)
    (cur : PyDateTime) :
    (resolve_month_budget cfg st cat cur).1
      ∈ (resolve_month_budget cfg st cat cur).2.budgets := by
  unfold resolve_month_budget
  cases most_recent_budget_on_or_before st.budgets cat.id cur <;>
    apply goc_mem

/-- `resolve_month_budget` preserves the uniqueness constraint. -/
theorem resolve_unique (cfg : String → ℚ) (st : DBState) (cat : Category)
    (cur : PyDateTime) (hU : UniqueBudgets st.budgets) :
    UniqueBudgets (resolve_month_budget cfg st cat cur).2.budgets := by
  unfold resolve_month_budget
  cases most_recent_budget_on_or_before st.budgets cat.id cur <;>
    exact goc_unique _ _ _ _ hU

/-- `resolve_month_budget` keeps months month-starts. -/
theorem resolve_monthstarts (cfg : String → ℚ) (st : DBState) (cat : Category)
    (cur : PyDateTime) (hMS : MonthStartBudgets st.budgets) (hcur : isMonthStart cur) :
    MonthStartBudgets (resolve_month_budget cfg st cat cur).2.budgets := by
  unfold resolve_month_budget
  cases most_recent_budget_on_or_before st.budgets cat.id cur <;>
    exact goc_monthstarts _ _ _ _ hMS hcur

/-- When a unique store already holds a row of the category at exactly the
walked month, `resolve_month_budget` returns that row and leaves the store
unchanged. -/
theorem resolve_read (cfg : String → ℚ) (st : DBState) (cat : Category)
    {mb : MonthlyBudget} (hU : UniqueBudgets st.budgets)
    (hmem : mb ∈ st.budgets) (hcid : mb.category_id = cat.id) :
    resolve_month_budget cfg st cat mb.month_start = (mb, st) := by
  unfold resolve_month_budget
  rw [most_recent_exact hU hmem hcid]
  unfold get_or_create_monthly_budget
  rw [findBudget_eq_some hU hmem hcid rfl]

/-! ## Machinery: what a walk does to the store -/

/-- The walk never touches the purchase table. -/
theorem carry_go_purchases (cfg : String → ℚ) (cat : Category) (T : PyDateTime) :
    ∀ (n : Nat) (cur : PyDateTime) (c : ℚ) (st : DBState),
      (carry_go cfg cat T n cur c st).2.purchases = st.purchases := by
  intro n
  induction n with
  | zero => intro cur c st; rfl
  | succ n ih =>
      intro cur c st
      unfold carry_go
      cases hg : PyDateTime.ltb cur T
      · simp [hg]
      · simp only [hg, if_pos]
        rw [ih]
        apply resolve_purchases

/-- The walk never touches the purchase table (`carry_loop` form). -/
theorem carry_loop_purchases (cfg : String → ℚ) (cat : Category)
    (T cur : PyDateTime) (c : ℚ) (st : DBState) :
    (carry_loop cfg cat T cur c st).2.purchases = st.purchases :=
  carry_go_purchases cfg cat T _ cur c st

/-- `cumulative_carry_until` never touches the purchase table. -/
theorem cum_purchases (cfg : String → ℚ) (st : DBState) (cat : Category)
    (T : PyDateTime) :
    (cumulative_carry_until cfg st cat T).2.purchases = st.purchases := by
  unfold cumulative_carry_until
  cases first_activity st cat
  · rfl
  · apply carry_loop_purchases

/-- Materialization: a walk from `cur` towards `T` over a unique month-start
store only appends rows — all for the walked category, at month-starts in
`[cur, T)` — preserves both invariants, and afterwards a row exists at every
month-start of `[cur, T)` for the category. -/
theorem carry_loop_mat (cfg : String → ℚ) (cat : Category) (T : PyDateTime)
    (hT : isMonthStart T) :
    ∀ (k : Nat) (cur : PyDateTime), isMonthStart cur → monthIdx T ≤ monthIdx cur + k →
      ∀ (c : ℚ) (st : DBState), UniqueBudgets st.budgets → MonthStartBudgets st.budgets →
      (∃ e, (carry_loop cfg cat T cur c st).2.budgets = st.budgets ++ e
          ∧ ∀ x ∈ e, x.category_id = cat.id ∧ isMonthStart x.month_start
              ∧ monthIdx cur ≤ monthIdx x.month_start ∧ monthIdx x.month_start < monthIdx T)
        ∧ UniqueBudgets (carry_loop cfg cat T cur c st).2.budgets
        ∧ MonthStartBudgets (carry_loop cfg cat T cur c st).2.budgets
        ∧ (∀ m, isMonthStart m → monthIdx cur ≤ monthIdx m → monthIdx m < monthIdx T →
            RowAt (carry_loop cfg cat T cur c st).2.budgets cat.id m) := by
  intro k
  induction k with
  | zero =>
      intro cur hcur hk c st hU hMS
      have hg : PyDateTime.ltb cur T = false := by
        cases hg' : PyDateTime.ltb cur T
        · rfl
        · exact absurd ((ltb_iff_monthIdx hcur hT).mp hg') (by omega)
      rw [carry_loop_eq, if_neg (by simp [hg])]
      exact ⟨⟨[], by simp, by simp⟩, hU, hMS, fun m _ h1 h2 => absurd h2 (by omega)⟩
  | succ k ih =>
      intro cur hcur hk c st hU hMS
      cases hg : PyDateTime.ltb cur T with
      | false =>
          rw [carry_loop_eq, if_neg (by simp [hg])]
          have hcT : ¬ monthIdx cur < monthIdx T := by
            intro hlt
            rw [(ltb_iff_monthIdx hcur hT).mpr hlt] at hg
            cases hg
          exact ⟨⟨[], by simp, by simp⟩, hU, hMS, fun m _ h1 h2 => absurd h2 (by omega)⟩
      | true =>
          rw [carry_loop_eq, if_pos hg]
          have hcurT : monthIdx cur < monthIdx T := (ltb_iff_monthIdx hcur hT).mp hg
          have hnext : isMonthStart (next_month_start cur) := isMonthStart_next cur
          have hk' : monthIdx T ≤ monthIdx (next_month_start cur) + k := by
            rw [monthIdx_next]; omega
          obtain ⟨⟨e1, he1, he1p⟩, hU', hMS', hRow⟩ :=
            ih (next_month_start cur) hnext hk' _ _
              (resolve_unique cfg st cat cur hU)
              (resolve_monthstarts cfg st cat cur hMS hcur)
          obtain ⟨e0, he0, he0p⟩ := resolve_budgets cfg st cat cur
          refine ⟨⟨e0 ++ e1, ?_, ?_⟩, hU', hMS', ?_⟩
          · rw [he1, he0, List.append_assoc]
          · intro x hx
            rcases List.mem_append.mp hx with hx | hx
            · have hx0 := he0p x hx
              have hf := resolve_fst cfg st cat cur
              rw [hx0]
              exact ⟨hf.1, by rw [hf.2]; exact hcur, by rw [hf.2],
                by rw [hf.2]; exact hcurT⟩
            · obtain ⟨hx1, hx2, hx3, hx4⟩ := he1p x hx
              refine ⟨hx1, hx2, ?_, hx4⟩
              rw [monthIdx_next] at hx3
              omega
          · intro m hm h1 h2
            by_cases hmc : monthIdx m = monthIdx cur
            · have hmeq : m = cur := eq_of_monthIdx_eq hm hcur hmc
              refine ⟨(resolve_month_budget cfg st cat cur).1, ?_,
                (resolve_fst cfg st cat cur).1, by rw [(resolve_fst cfg st cat cur).2, hmeq]⟩
              rw [he1]
              exact List.mem_append_left _ (resolve_mem cfg st cat cur)
            · apply hRow m hm _ h2
              rw [monthIdx_next]
              omega

/-- Replay: running the same walk again from the state the first run left
behind returns the same carry and changes nothing — the second run reads the
rows the first run materialized. -/
theorem carry_loop_replay (cfg : String → ℚ) (cat : Category) (T : PyDateTime)
    (hT : isMonthStart T) :
    ∀ (k : Nat) (cur : PyDateTime), isMonthStart cur → monthIdx T ≤ monthIdx cur + k →
      ∀ (c : ℚ) (st : DBState), UniqueBudgets st.budgets → MonthStartBudgets st.budgets →
      carry_loop cfg cat T cur c ((carry_loop cfg cat T cur c st).2)
        = carry_loop cfg cat T cur c st := by
  intro k
  induction k with
  | zero =>
      intro cur hcur hk c st hU hMS
      have hg : PyDateTime.ltb cur T = false := by
        cases hg' : PyDateTime.ltb cur T
        · rfl
        · exact absurd ((ltb_iff_monthIdx hcur hT).mp hg') (by omega)
      have hstop : ∀ st₀ : DBState, carry_loop cfg cat T cur c st₀ = (c, st₀) := by
        intro st₀; rw [carry_loop_eq, if_neg (by simp [hg])]
      simp only [hstop]
  | succ k ih =>
      intro cur hcur hk c st hU hMS
      cases hg : PyDateTime.ltb cur T with
      | false =>
          have hstop : ∀ st₀ : DBState, carry_loop cfg cat T cur c st₀ = (c, st₀) := by
            intro st₀; rw [carry_loop_eq, if_neg (by simp [hg])]
          simp only [hstop]
      | true =>
          have hnext : isMonthStart (next_month_start cur) := isMonthStart_next cur
          have hk' : monthIdx T ≤ monthIdx (next_month_start cur) + k := by
            rw [monthIdx_next]; omega
          have hUA := resolve_unique cfg st cat cur hU
          have hMSA := resolve_monthstarts cfg st cat cur hMS hcur
          have hinner : carry_loop cfg cat T cur c st
              = carry_loop cfg cat T (next_month_start cur)
                  (c + ((resolve_month_budget cfg st cat cur).1.base_budget
                    - month_spend_for_category st.purchases cat.id cur (next_month_start cur)))
                  (resolve_month_budget cfg st cat cur).2 := by
            rw [carry_loop_eq, if_pos hg]
          obtain ⟨⟨e1, he1, _⟩, hU1, hMS1, _⟩ :=
            carry_loop_mat cfg cat T hT k (next_month_start cur) hnext hk'
              (c + ((resolve_month_budget cfg st cat cur).1.base_budget
                - month_spend_for_category st.purchases cat.id cur (next_month_start cur)))
              (resolve_month_budget cfg st cat cur).2 hUA hMSA
          have hmem1 : (resolve_month_budget cfg st cat cur).1
              ∈ (carry_loop cfg cat T (next_month_start cur)
                  (c + ((resolve_month_budget cfg st cat cur).1.base_budget
                    - month_spend_for_category st.purchases cat.id cur (next_month_start cur)))
                  (resolve_month_budget cfg st cat cur).2).2.budgets := by
            rw [he1]
            exact List.mem_append_left _ (resolve_mem cfg st cat cur)
          have hpur1 : (carry_loop cfg cat T (next_month_start cur)
              (c + ((resolve_month_budget cfg st cat cur).1.base_budget
                - month_spend_for_category st.purchases cat.id cur (next_month_start cur)))
              (resolve_month_budget cfg st cat cur).2).2.purchases = st.purchases := by
            rw [carry_loop_purchases, resolve_purchases]
          have hres1 : resolve_month_budget cfg
              (carry_loop cfg cat T (next_month_start cur)
                (c + ((resolve_month_budget cfg st cat cur).1.base_budget
                  - month_spend_for_category st.purchases cat.id cur (next_month_start cur)))
                (resolve_month_budget cfg st cat cur).2).2 cat cur
              = ((resolve_month_budget cfg st cat cur).1,
                 (carry_loop cfg cat T (next_month_start cur)
                  (c + ((resolve_month_budget cfg st cat cur).1.base_budget
                    - month_spend_for_category st.purchases cat.id cur (next_month_start cur)))
                  (resolve_month_budget cfg st cat cur).2).2) := by
            have h := resolve_read cfg _ cat hU1 hmem1 (resolve_fst cfg st cat cur).1
            rw [(resolve_fst cfg st cat cur).2] at h
            exact h
          rw [hinner]
          rw [carry_loop_eq, if_pos hg, hres1, hpur1]
          exact ih (next_month_start cur) hnext hk' _ _ hUA hMSA

/-- Simulation: two stores that agree on the purchases and share a row of the
walked category at every month-start of `[cur, T)` give walks that read those
rows, return the same carry, and leave both stores unchanged. -/
theorem carry_loop_sim (cfg : String → ℚ) (cat : Category) (T : PyDateTime)
    (hT : isMonthStart T) :
    ∀ (k : Nat) (cur : PyDateTime), isMonthStart cur → monthIdx T ≤ monthIdx cur + k →
      ∀ (c : ℚ) (stA stB : DBState),
      stA.purchases = stB.purchases →
      UniqueBudgets stA.budgets → UniqueBudgets stB.budgets →
      (∀ m, isMonthStart m → monthIdx cur ≤ monthIdx m → monthIdx m < monthIdx T →
        ∃ r, r ∈ stA.budgets ∧ r ∈ stB.budgets ∧ r.category_id = cat.id
          ∧ r.month_start = m) →
      (carry_loop cfg cat T cur c stA).1 = (carry_loop cfg cat T cur c stB).1
        ∧ (carry_loop cfg cat T cur c stA).2 = stA
        ∧ (carry_loop cfg cat T cur c stB).2 = stB := by
  intro k
  induction k with
  | zero =>
      intro cur hcur hk c stA stB hpur hUA hUB hrow
      have hg : PyDateTime.ltb cur T = false := by
        cases hg' : PyDateTime.ltb cur T
        · rfl
        · exact absurd ((ltb_iff_monthIdx hcur hT).mp hg') (by omega)
      have hstop : ∀ st₀ : DBState, carry_loop cfg cat T cur c st₀ = (c, st₀) := by
        intro st₀; rw [carry_loop_eq, if_neg (by simp [hg])]
      simp only [hstop]
      exact ⟨trivial, trivial, trivial⟩
  | succ k ih =>
      intro cur hcur hk c stA stB hpur hUA hUB hrow
      cases hg : PyDateTime.ltb cur T with
      | false =>
          have hstop : ∀ st₀ : DBState, carry_loop cfg cat T cur c st₀ = (c, st₀) := by
            intro st₀; rw [carry_loop_eq, if_neg (by simp [hg])]
          simp only [hstop]
          exact ⟨trivial, trivial, trivial⟩
      | true =>
          have hcurT : monthIdx cur < monthIdx T := (ltb_iff_monthIdx hcur hT).mp hg
          obtain ⟨r, hrA, hrB, hrc, hrm⟩ := hrow cur hcur (le_refl _) hcurT
          have hresA : resolve_month_budget cfg stA cat cur = (r, stA) := by
            have h := resolve_read cfg stA cat hUA hrA hrc
            rw [hrm] at h
            exact h
          have hresB : resolve_month_budget cfg stB cat cur = (r, stB) := by
            have h := resolve_read cfg stB cat hUB hrB hrc
            rw [hrm] at h
            exact h
          have hnext : isMonthStart (next_month_start cur) := isMonthStart_next cur
          have hk' : monthIdx T ≤ monthIdx (next_month_start cur) + k := by
            rw [monthIdx_next]; omega
          have hrow' : ∀ m, isMonthStart m → monthIdx (next_month_start cur) ≤ monthIdx m →
              monthIdx m < monthIdx T →
              ∃ r, r ∈ stA.budgets ∧ r ∈ stB.budgets ∧ r.category_id = cat.id
                ∧ r.month_start = m := by
            intro m hm h1 h2
            rw [monthIdx_next] at h1
            exact hrow m hm (by omega) h2
          have hih := ih (next_month_start cur) hnext hk'
            (c + (r.base_budget
              - month_spend_for_category stA.purchases cat.id cur (next_month_start cur)))
            stA stB hpur hUA hUB hrow'
          constructor
          · rw [carry_loop_eq, if_pos hg, hresA]
            conv_rhs => rw [carry_loop_eq, if_pos hg, hresB]
            rw [← hpur]
            exact hih.1
          constructor
          · rw [carry_loop_eq, if_pos hg, hresA]
            exact hih.2.1
          · rw [carry_loop_eq, if_pos hg, hresB]
            rw [← hpur]
            exact hih.2.2

/-- Decomposition: a walk towards `T2` splits at any intermediate month-start
`T1` — it is the walk towards `T1` followed by a walk from `T1` towards `T2`
in the resulting state. -/
theorem carry_loop_split (cfg : String → ℚ) (cat : Category) (T1 T2 : PyDateTime)
    (hT1 : isMonthStart T1) (hT2 : isMonthStart T2) (h12 : monthIdx T1 ≤ monthIdx T2) :
    ∀ (k : Nat) (cur : PyDateTime), isMonthStart cur →
      monthIdx T1 ≤ monthIdx cur + k → monthIdx cur ≤ monthIdx T1 →
      ∀ (c : ℚ) (st : DBState),
      carry_loop cfg cat T2 cur c st
        = carry_loop cfg cat T2 T1 (carry_loop cfg cat T1 cur c st).1
            (carry_loop cfg cat T1 cur c st).2 := by
  intro k
  induction k with
  | zero =>
      intro cur hcur hk hle c st
      have hcT : cur = T1 := eq_of_monthIdx_eq hcur hT1 (by omega)
      subst hcT
      have hstop : carry_loop cfg cat cur cur c st = (c, st) := by
        rw [carry_loop_eq, if_neg (by simp [PyDateTime.ltb_irrefl])]
      rw [hstop]
  | succ k ih =>
      intro cur hcur hk hle c st
      by_cases hceq : monthIdx cur = monthIdx T1
      · have hcT : cur = T1 := eq_of_monthIdx_eq hcur hT1 hceq
        subst hcT
        have hstop : carry_loop cfg cat cur cur c st = (c, st) := by
          rw [carry_loop_eq, if_neg (by simp [PyDateTime.ltb_irrefl])]
        rw [hstop]
      · have hlt : monthIdx cur < monthIdx T1 := by omega
        have hg1 : PyDateTime.ltb cur T1 = true := (ltb_iff_monthIdx hcur hT1).mpr hlt
        have hg2 : PyDateTime.ltb cur T2 = true :=
          (ltb_iff_monthIdx hcur hT2).mpr (by omega)
        have hnext : isMonthStart (next_month_start cur) := isMonthStart_next cur
        have hk' : monthIdx T1 ≤ monthIdx (next_month_start cur) + k := by
          rw [monthIdx_next]; omega
        have hle' : monthIdx (next_month_start cur) ≤ monthIdx T1 := by
          rw [monthIdx_next]; omega
        have hstep1 : carry_loop cfg cat T1 cur c st
            = carry_loop cfg cat T1 (next_month_start cur)
                (c + ((resolve_month_budget cfg st cat cur).1.base_budget
                  - month_spend_for_category st.purchases cat.id cur (next_month_start cur)))
                (resolve_month_budget cfg st cat cur).2 := by
          rw [carry_loop_eq, if_pos hg1]
        rw [carry_loop_eq, if_pos hg2, hstep1]
        exact ih (next_month_start cur) hnext hk' hle' _ _

/-- `cumulative_carry_until` on a category with no activity. -/
theorem cum_none (cfg : String → ℚ) (st : DBState) (cat : Category)
    (T : PyDateTime) (h : first_activity st cat = none) :
    cumulative_carry_until cfg st cat T = (0, st) := by
  simp [cumulative_carry_until, h]

/-- `cumulative_carry_until` on a category with first activity `t` is the
walk from `t`'s month. -/
theorem cum_some (cfg : String → ℚ) (st : DBState) (cat : Category)
    (T : PyDateTime) {t : PyDateTime} (h : first_activity st cat = some t) :
    cumulative_carry_until cfg st cat T
      = carry_loop cfg cat T (py_month_start t) 0 st := by
  simp [cumulative_carry_until, h]

/-! ## C2: the carry for `M+1` decomposes as the carry for `M` plus one
month's contribution -/

/-- C2: for a category whose first activity is at or before month-start `M`,
the carry for target `M+1` equals the carry for target `M` plus that one
month's `(base − spend)`, where the base is the row the walk resolves (and
materializes) for `M` in the state the `M`-walk left behind, and the spend is
the ledger sum over `[M, M+1)`. -/
theorem C2_carry_decomposes (cfg : String → ℚ) (st : DBState) (cat : Category)
    (M : PyDateTime) (hM : isMonthStart M) (t : PyDateTime)
    (hact : first_activity st cat = some t)
    (hle : monthIdx (py_month_start t) ≤ monthIdx M) :
    (cumulative_carry_until cfg st cat (next_month_start M)).1
      = (cumulative_carry_until cfg st cat M).1
        + ((resolve_month_budget cfg (cumulative_carry_until cfg st cat M).2 cat M).1.base_budget
           - month_spend_for_category st.purchases cat.id M (next_month_start M)) := by
  rw [cum_some cfg st cat (next_month_start M) hact, cum_some cfg st cat M hact]
  rw [carry_loop_split cfg cat M (next_month_start M) hM (isMonthStart_next M)
    (by rw [monthIdx_next]; omega) (monthIdx M) (py_month_start t)
    (isMonthStart_py_month_start t) (by omega) hle 0 st]
  rw [carry_loop_eq, if_pos (ltb_next M)]
  rw [carry_loop_eq, if_neg (by simp [PyDateTime.ltb_irrefl])]
  rw [carry_loop_purchases]

/-- C2 witness: the scenario category's first activity is January 2024, at or
before February 2024, and the decomposition law holds there. -/
theorem C2_carry_decomposes_witness :
    first_activity st_scenario catGroceries = some dJan2024_10
      ∧ monthIdx (py_month_start dJan2024_10) ≤ monthIdx dFeb2024
      ∧ (cumulative_carry_until cfg400 st_scenario catGroceries
            (next_month_start dFeb2024)).1
          = (cumulative_carry_until cfg400 st_scenario catGroceries dFeb2024).1
            + ((resolve_month_budget cfg400
                  (cumulative_carry_until cfg400 st_scenario catGroceries dFeb2024).2
                  catGroceries dFeb2024).1.base_budget
               - month_spend_for_category st_scenario.purchases catGroceries.id
                   dFeb2024 (next_month_start dFeb2024)) :=
  ⟨by decide, by decide,
   C2_carry_decomposes cfg400 st_scenario catGroceries dFeb2024 (by decide)
     dJan2024_10 (by decide) (by decide)⟩

/-! ## Machinery: stability of the first-activity lookup -/

/-- Folding the min step over rows none of which precede `t0` keeps `t0`. -/
theorem foldl_min_stable :
    ∀ (l : List MonthlyBudget) (t0 : PyDateTime),
      (∀ x ∈ l, PyDateTime.ltb x.month_start t0 = false) →
      l.foldl (fun acc mb =>
        match acc with
        | none => some mb.month_start
        | some t => if PyDateTime.ltb mb.month_start t then some mb.month_start else acc)
        (some t0) = some t0 := by
  intro l
  induction l with
  | nil => intro t0 _; rfl
  | cons x tl ih =>
      intro t0 hall
      simp only [List.foldl_cons]
      rw [if_neg (by simp [hall x (List.mem_cons_self x tl)])]
      exact ih t0 (fun y hy => hall y (List.mem_cons_of_mem x hy))

/-- Appending rows that do not precede the current minimum month leaves
`first_budget_ts` unchanged. -/
theorem first_budget_ts_append {bs : List MonthlyBudget} {cid : Nat}
    {t0 : PyDateTime} (h : first_budget_ts bs cid = some t0)
    (e : List MonthlyBudget)
    (he : ∀ x ∈ e, x.category_id = cid → PyDateTime.ltb x.month_start t0 = false) :
    first_budget_ts (bs ++ e) cid = some t0 := by
  unfold first_budget_ts at h ⊢
  rw [List.filter_append, List.foldl_append, h]
  apply foldl_min_stable
  intro x hx
  have hx' := List.mem_filter.mp hx
  simp only [beq_iff_eq] at hx'
  exact he x hx'.1 hx'.2

/-- The minimum month returned by `first_budget_ts` is the month of some row
of the category. -/
theorem first_budget_ts_mem {bs : List MonthlyBudget} {cid : Nat} {t : PyDateTime}
    (h : first_budget_ts bs cid = some t) :
    ∃ mb ∈ bs, mb.category_id = cid ∧ mb.month_start = t := by
  unfold first_budget_ts at h
  have aux : ∀ (l : List MonthlyBudget) (acc : Option PyDateTime),
      l.foldl (fun acc mb =>
        match acc with
        | none => some mb.month_start
        | some u => if PyDateTime.ltb mb.month_start u then some mb.month_start else acc)
        acc = some t →
      acc = some t ∨ ∃ mb ∈ l, mb.month_start = t := by
    intro l
    induction l with
    | nil => intro acc hacc; exact Or.inl hacc
    | cons x tl ih =>
        intro acc hacc
        simp only [List.foldl_cons] at hacc
        rcases ih _ hacc with h1 | h1
        · cases acc with
          | none =>
              have h1' : some x.month_start = some t := h1
              cases h1'
              exact Or.inr ⟨x, List.mem_cons_self x tl, rfl⟩
          | some u =>
              have h1' : (if PyDateTime.ltb x.month_start u = true
                  then some x.month_start else some u) = some t := h1
              by_cases hxu : PyDateTime.ltb x.month_start u = true
              · rw [if_pos hxu] at h1'
                cases h1'
                exact Or.inr ⟨x, List.mem_cons_self x tl, rfl⟩
              · rw [if_neg hxu] at h1'
                exact Or.inl h1'
        · obtain ⟨mb, hmb, hmbt⟩ := h1
          exact Or.inr ⟨mb, List.mem_cons_of_mem x hmb, hmbt⟩
  rcases aux _ _ h with h1 | h1
  · cases h1
  · obtain ⟨mb, hmb, hmbt⟩ := h1
    have hmb' := List.mem_filter.mp hmb
    simp only [beq_iff_eq] at hmb'
    exact ⟨mb, hmb'.1, hmb'.2, hmbt⟩

/-- Extending the store with rows of later (or equal) months, without touching
the purchases, does not change the category's first activity. -/
theorem first_activity_stable (cat : Category) {st st' : DBState}
    (hMS : MonthStartBudgets st.budgets)
    (hpur : st'.purchases = st.purchases)
    {e : List MonthlyBudget} (hbud : st'.budgets = st.budgets ++ e)
    (heMS : ∀ x ∈ e, isMonthStart x.month_start)
    {t : PyDateTime} (hact : first_activity st cat = some t)
    (hidx : ∀ x ∈ e, monthIdx (py_month_start t) ≤ monthIdx x.month_start) :
    first_activity st' cat = some t := by
  unfold first_activity at hact ⊢
  rw [hpur, hbud]
  cases hp : first_purchase_ts st.purchases cat.id with
  | some t' =>
      rw [hp] at hact
      simp only [Option.orElse] at hact ⊢
      exact hact
  | none =>
      rw [hp] at hact
      simp only [Option.orElse] at hact ⊢
      have ht : isMonthStart t := by
        obtain ⟨mb, hmb, _, hmbt⟩ := first_budget_ts_mem hact
        rw [← hmbt]
        exact hMS mb hmb
      rw [first_budget_ts_append hact e ?_]
      intro x hx _
      cases hxt : PyDateTime.ltb x.month_start t with
      | false => rfl
      | true =>
          exfalso
          have := (ltb_iff_monthIdx (heMS x hx) ht).mp hxt
          have h2 := hidx x hx
          rw [monthIdx_py_month_start] at h2
          omega

/-! ## C3: a later, larger walk never changes an earlier result -/

/-- C3: in a unique month-start store, if the carry for target `M+1` is `v`,
then after a subsequent call for target `M+3` (which may backfill rows for
the intervening months), the carry for target `M+1` is still `v`. -/
theorem C3_backfill_monotone (cfg : String → ℚ) (st : DBState) (cat : Category)
    (M : PyDateTime) (hM : isMonthStart M)
    (hU : UniqueBudgets st.budgets) (hMS : MonthStartBudgets st.budgets) :
    (cumulative_carry_until cfg
        (cumulative_carry_until cfg
          (cumulative_carry_until cfg st cat (next_month_start M)).2
          cat (next_month_start (next_month_start (next_month_start M)))).2
        cat (next_month_start M)).1
      = (cumulative_carry_until cfg st cat (next_month_start M)).1 := by
  cases hact : first_activity st cat with
  | none =>
      have h1 := cum_none cfg st cat (next_month_start M) hact
      rw [h1]
      have h2 : cumulative_carry_until cfg ((0 : ℚ), st).2 cat
          (next_month_start (next_month_start (next_month_start M))) = (0, st) :=
        cum_none cfg st cat _ hact
      rw [h2]
      have h3 : cumulative_carry_until cfg ((0 : ℚ), st).2 cat (next_month_start M)
          = (0, st) := cum_none cfg st cat _ hact
      rw [h3]
  | some t =>
      have hs0 : isMonthStart (py_month_start t) := isMonthStart_py_month_start t
      have hM1 : isMonthStart (next_month_start M) := isMonthStart_next M
      have hM3 : isMonthStart
          (next_month_start (next_month_start (next_month_start M))) :=
        isMonthStart_next _
      have hi1 : monthIdx (next_month_start M) = monthIdx M + 1 := monthIdx_next M
      have hi3 : monthIdx (next_month_start (next_month_start (next_month_start M)))
          = monthIdx M + 3 := by
        simp only [monthIdx_next]
      rw [cum_some cfg st cat (next_month_start M) hact]
      by_cases hle : monthIdx (py_month_start t) ≤ monthIdx M
      · -- the walk towards M+1 is non-empty
        obtain ⟨⟨e1, he1, he1p⟩, hU1, hMS1, hRow1⟩ :=
          carry_loop_mat cfg cat (next_month_start M) hM1
            (monthIdx (next_month_start M)) (py_month_start t) hs0 (by omega) 0 st hU hMS
        have hact1 : first_activity
            (carry_loop cfg cat (next_month_start M) (py_month_start t) 0 st).2 cat
            = some t :=
          first_activity_stable cat hMS
            (carry_loop_purchases cfg cat (next_month_start M) (py_month_start t) 0 st)
            he1 (fun x hx => (he1p x hx).2.1) hact
            (fun x hx => (he1p x hx).2.2.1)
        rw [cum_some cfg _ cat _ hact1]
        rw [carry_loop_split cfg cat (next_month_start M)
          (next_month_start (next_month_start (next_month_start M))) hM1 hM3
          (by omega) (monthIdx (next_month_start M)) (py_month_start t) hs0
          (by omega) (by omega) 0 _]
        rw [carry_loop_replay cfg cat (next_month_start M) hM1
          (monthIdx (next_month_start M)) (py_month_start t) hs0 (by omega) 0 st hU hMS]
        obtain ⟨⟨e2, he2, he2p⟩, hU2, hMS2, _⟩ :=
          carry_loop_mat cfg cat
            (next_month_start (next_month_start (next_month_start M))) hM3
            (monthIdx (next_month_start (next_month_start (next_month_start M))))
            (next_month_start M) hM1 (by omega)
            (carry_loop cfg cat (next_month_start M) (py_month_start t) 0 st).1
            (carry_loop cfg cat (next_month_start M) (py_month_start t) 0 st).2 hU1 hMS1
        have hact2 : first_activity
            (carry_loop cfg cat (next_month_start (next_month_start (next_month_start M)))
              (next_month_start M)
              (carry_loop cfg cat (next_month_start M) (py_month_start t) 0 st).1
              (carry_loop cfg cat (next_month_start M) (py_month_start t) 0 st).2).2 cat
            = some t := by
        -- the combined extension from st is e1 ++ e2
          refine @first_activity_stable cat st _ hMS ?_ (e1 ++ e2) ?_ ?_ t hact ?_
          · rw [carry_loop_purchases, carry_loop_purchases]
          · rw [he2, he1, List.append_assoc]
          · intro x hx
            rcases List.mem_append.mp hx with hx | hx
            · exact (he1p x hx).2.1
            · exact (he2p x hx).2.1
          · intro x hx
            rcases List.mem_append.mp hx with hx | hx
            · exact (he1p x hx).2.2.1
            · have h2 := (he2p x hx).2.2.1
              have h3 := monthIdx_py_month_start t
              omega
        rw [cum_some cfg _ cat _ hact2]
        have hsim := carry_loop_sim cfg cat (next_month_start M) hM1
          (monthIdx (next_month_start M)) (py_month_start t) hs0 (by omega) 0
          (carry_loop cfg cat (next_month_start M) (py_month_start t) 0 st).2
          (carry_loop cfg cat (next_month_start (next_month_start (next_month_start M)))
            (next_month_start M)
            (carry_loop cfg cat (next_month_start M) (py_month_start t) 0 st).1
            (carry_loop cfg cat (next_month_start M) (py_month_start t) 0 st).2).2
          (by simp only [carry_loop_purchases]) hU1 hU2
          (by
            intro m hm h1 h2
            obtain ⟨r, hr, hrc, hrm⟩ := hRow1 m hm h1 h2
            refine ⟨r, hr, ?_, hrc, hrm⟩
            rw [he2]
            exact List.mem_append_left _ hr)
        rw [← hsim.1]
        rw [carry_loop_replay cfg cat (next_month_start M) hM1
          (monthIdx (next_month_start M)) (py_month_start t) hs0 (by omega) 0 st hU hMS]
      · -- the walk towards M+1 is empty: its guard fails in every state
        have hg : PyDateTime.ltb (py_month_start t) (next_month_start M) = false := by
          cases hg' : PyDateTime.ltb (py_month_start t) (next_month_start M)
          · rfl
          · exact absurd ((ltb_iff_monthIdx hs0 hM1).mp hg') (by omega)
        have hstop : ∀ st₀ : DBState,
            carry_loop cfg cat (next_month_start M) (py_month_start t) 0 st₀
              = (0, st₀) := by
          intro st₀; rw [carry_loop_eq, if_neg (by simp [hg])]
        rw [hstop]
        have hcall2 : cumulative_carry_until cfg ((0 : ℚ), st).2 cat
            (next_month_start (next_month_start (next_month_start M)))
            = carry_loop cfg cat
                (next_month_start (next_month_start (next_month_start M)))
                (py_month_start t) 0 st :=
          cum_some cfg st cat _ hact
        rw [hcall2]
        obtain ⟨⟨e2, he2, he2p⟩, hU2, hMS2, _⟩ :=
          carry_loop_mat cfg cat
            (next_month_start (next_month_start (next_month_start M))) hM3
            (monthIdx (next_month_start (next_month_start (next_month_start M))))
            (py_month_start t) hs0 (by omega) 0 st hU hMS
        have hact2 : first_activity
            (carry_loop cfg cat
              (next_month_start (next_month_start (next_month_start M)))
              (py_month_start t) 0 st).2 cat = some t :=
          first_activity_stable cat hMS
            (carry_loop_purchases cfg cat _ (py_month_start t) 0 st)
            he2 (fun x hx => (he2p x hx).2.1) hact
            (fun x hx => (he2p x hx).2.2.1)
        rw [cum_some cfg _ cat _ hact2]
        rw [hstop]

/-- C3 witness: the scenario state, with M = January 2024. -/
theorem C3_backfill_monotone_witness :
    (cumulative_carry_until cfg400
        (cumulative_carry_until cfg400
          (cumulative_carry_until cfg400 st_scenario catGroceries
            (next_month_start dJan2024)).2
          catGroceries
          (next_month_start (next_month_start (next_month_start dJan2024)))).2
        catGroceries (next_month_start dJan2024)).1
      = (cumulative_carry_until cfg400 st_scenario catGroceries
          (next_month_start dJan2024)).1 :=
  C3_backfill_monotone cfg400 st_scenario catGroceries dJan2024 (by decide)
    (by exact List.Pairwise.nil) (by intro mb h; exact absurd h (List.not_mem_nil mb))

/-- The walk of `cumulative_carry_until` only appends budget rows and keeps
both store invariants. -/
theorem cum_mat (cfg : String → ℚ) (stB : DBState) (cat : Category)
    (cur : PyDateTime) (hcur : isMonthStart cur)
    (hU : UniqueBudgets stB.budgets) (hMS : MonthStartBudgets stB.budgets) :
    (∃ e, (cumulative_carry_until cfg stB cat cur).2.budgets = stB.budgets ++ e)
      ∧ UniqueBudgets (cumulative_carry_until cfg stB cat cur).2.budgets
      ∧ MonthStartBudgets (cumulative_carry_until cfg stB cat cur).2.budgets := by
  cases hact : first_activity stB cat with
  | none =>
      rw [cum_none cfg stB cat cur hact]
      exact ⟨⟨[], by simp⟩, hU, hMS⟩
  | some t =>
      rw [cum_some cfg stB cat cur hact]
      obtain ⟨⟨e, he, _⟩, hU1, hMS1, _⟩ :=
        carry_loop_mat cfg cat cur hcur (monthIdx cur) (py_month_start t)
          (isMonthStart_py_month_start t) (by omega) 0 stB hU hMS
      exact ⟨⟨e, he⟩, hU1, hMS1⟩

/-- Running `cumulative_carry_until` again from the state it left behind
returns the same carry and the same state. -/
theorem cum_replay (cfg : String → ℚ) (stB : DBState) (cat : Category)
    (cur : PyDateTime) (hcur : isMonthStart cur)
    (hU : UniqueBudgets stB.budgets) (hMS : MonthStartBudgets stB.budgets) :
    cumulative_carry_until cfg (cumulative_carry_until cfg stB cat cur).2 cat cur
      = cumulative_carry_until cfg stB cat cur := by
  cases hact : first_activity stB cat with
  | none =>
      have h := cum_none cfg stB cat cur hact
      rw [h]
      exact h
  | some t =>
      rw [cum_some cfg stB cat cur hact]
      obtain ⟨⟨e, he, hep⟩, hU1, hMS1, _⟩ :=
        carry_loop_mat cfg cat cur hcur (monthIdx cur) (py_month_start t)
          (isMonthStart_py_month_start t) (by omega) 0 stB hU hMS
      have hact1 : first_activity
          (carry_loop cfg cat cur (py_month_start t) 0 stB).2 cat = some t :=
        first_activity_stable cat hMS
          (carry_loop_purchases cfg cat cur (py_month_start t) 0 stB)
          he (fun x hx => (hep x hx).2.1) hact
          (fun x hx => (hep x hx).2.2.1)
      rw [cum_some cfg _ cat _ hact1]
      exact carry_loop_replay cfg cat cur hcur (monthIdx cur) (py_month_start t)
        (isMonthStart_py_month_start t) (by omega) 0 stB hU hMS

/-! ## C6: the monthly summary is idempotent without intervening mutation -/

/-- `summary_from` carries the walk state through unchanged. -/
theorem summary_from_snd (cfg : String → ℚ) (cat : Category) (now_utc : PyDateTime)
    (b : ℚ) (cr : ℚ × DBState) : (summary_from cfg cat now_utc b cr).2 = cr.2 := rfl

theorem summary_eq_exact (cfg : String → ℚ) (st : DBState) (cat : Category)
    (now_utc : PyDateTime) {pmb : MonthlyBudget}
    (hprev : most_recent_budget_on_or_before st.budgets cat.id (py_month_start now_utc)
      = some pmb)
    (hpm : pmb.month_start = py_month_start now_utc) :
    current_month_summary cfg st cat now_utc
      = summary_from cfg cat now_utc pmb.base_budget
          (cumulative_carry_until cfg st cat (py_month_start now_utc)) := by
  simp only [current_month_summary, summary_from, hprev]
  rw [if_pos hpm]

theorem summary_eq_prior (cfg : String → ℚ) (st : DBState) (cat : Category)
    (now_utc : PyDateTime) {pmb : MonthlyBudget}
    (hprev : most_recent_budget_on_or_before st.budgets cat.id (py_month_start now_utc)
      = some pmb)
    (hpm : ¬ pmb.month_start = py_month_start now_utc) :
    current_month_summary cfg st cat now_utc
      = summary_from cfg cat now_utc
          (get_or_create_monthly_budget st cat (py_month_start now_utc)
            pmb.base_budget).1.base_budget
          (cumulative_carry_until cfg
            (get_or_create_monthly_budget st cat (py_month_start now_utc)
              pmb.base_budget).2 cat (py_month_start now_utc)) := by
  simp only [current_month_summary, summary_from, hprev]
  rw [if_neg hpm]

theorem summary_eq_default (cfg : String → ℚ) (st : DBState) (cat : Category)
    (now_utc : PyDateTime)
    (hprev : most_recent_budget_on_or_before st.budgets cat.id (py_month_start now_utc)
      = none) :
    current_month_summary cfg st cat now_utc
      = summary_from cfg cat now_utc
          (get_or_create_monthly_budget st cat (py_month_start now_utc)
            (cfg cat.name)).1.base_budget
          (cumulative_carry_until cfg
            (get_or_create_monthly_budget st cat (py_month_start now_utc)
              (cfg cat.name)).2 cat (py_month_start now_utc)) := by
  simp only [current_month_summary, summary_from, hprev]

theorem C6_summary_idempotent_main (cfg : String → ℚ) (st : DBState) (cat : Category)
    (now_utc : PyDateTime) (hU : UniqueBudgets st.budgets)
    (hMS : MonthStartBudgets st.budgets) :
    current_month_summary cfg (current_month_summary cfg st cat now_utc).2 cat now_utc
      = current_month_summary cfg st cat now_utc := by
  have hcur : isMonthStart (py_month_start now_utc) := isMonthStart_py_month_start now_utc
  rcases hprev : most_recent_budget_on_or_before st.budgets cat.id (py_month_start now_utc)
    with _ | pmb
  · -- no prior row: the first call creates one from the configured default
    rw [summary_eq_default cfg st cat now_utc hprev, summary_from_snd]
    have hUB := goc_unique st cat (py_month_start now_utc) (cfg cat.name) hU
    have hMSB := goc_monthstarts st cat (py_month_start now_utc) (cfg cat.name) hMS hcur
    obtain ⟨⟨e, he⟩, hU1, _⟩ := cum_mat cfg
      (get_or_create_monthly_budget st cat (py_month_start now_utc) (cfg cat.name)).2
      cat (py_month_start now_utc) hcur hUB hMSB
    have hmem1 : (get_or_create_monthly_budget st cat (py_month_start now_utc)
        (cfg cat.name)).1 ∈ (cumulative_carry_until cfg
          (get_or_create_monthly_budget st cat (py_month_start now_utc) (cfg cat.name)).2
          cat (py_month_start now_utc)).2.budgets := by
      rw [he]
      exact List.mem_append_left _
        (goc_mem st cat (py_month_start now_utc) (cfg cat.name))
    have hprev2 := most_recent_exact hU1 hmem1
      (goc_fst st cat (py_month_start now_utc) (cfg cat.name)).1
    rw [(goc_fst st cat (py_month_start now_utc) (cfg cat.name)).2] at hprev2
    rw [summary_eq_exact cfg _ cat now_utc hprev2
      (goc_fst st cat (py_month_start now_utc) (cfg cat.name)).2]
    rw [cum_replay cfg _ cat (py_month_start now_utc) hcur hUB hMSB]
  · by_cases hpm : pmb.month_start = py_month_start now_utc
    · -- a row already exists at exactly the current month: no write
      have hpmem : pmb ∈ st.budgets := (most_recent_spec hprev).1
      have hpcid : pmb.category_id = cat.id := (most_recent_spec hprev).2.1
      rw [summary_eq_exact cfg st cat now_utc hprev hpm, summary_from_snd]
      obtain ⟨⟨e, he⟩, hU1, _⟩ := cum_mat cfg st cat (py_month_start now_utc) hcur hU hMS
      have hmem1 : pmb ∈ (cumulative_carry_until cfg st cat
          (py_month_start now_utc)).2.budgets := by
        rw [he]
        exact List.mem_append_left _ hpmem
      have hprev2 := most_recent_exact hU1 hmem1 hpcid
      rw [hpm] at hprev2
      rw [summary_eq_exact cfg _ cat now_utc hprev2 hpm]
      rw [cum_replay cfg st cat (py_month_start now_utc) hcur hU hMS]
    · -- a prior row exists but not at the current month: propagate its base
      rw [summary_eq_prior cfg st cat now_utc hprev hpm, summary_from_snd]
      have hUB := goc_unique st cat (py_month_start now_utc) pmb.base_budget hU
      have hMSB := goc_monthstarts st cat (py_month_start now_utc) pmb.base_budget hMS hcur
      obtain ⟨⟨e, he⟩, hU1, _⟩ := cum_mat cfg
        (get_or_create_monthly_budget st cat (py_month_start now_utc) pmb.base_budget).2
        cat (py_month_start now_utc) hcur hUB hMSB
      have hmem1 : (get_or_create_monthly_budget st cat (py_month_start now_utc)
          pmb.base_budget).1 ∈ (cumulative_carry_until cfg
            (get_or_create_monthly_budget st cat (py_month_start now_utc)
              pmb.base_budget).2 cat (py_month_start now_utc)).2.budgets := by
        rw [he]
        exact List.mem_append_left _
          (goc_mem st cat (py_month_start now_utc) pmb.base_budget)
      have hprev2 := most_recent_exact hU1 hmem1
        (goc_fst st cat (py_month_start now_utc) pmb.base_budget).1
      rw [(goc_fst st cat (py_month_start now_utc) pmb.base_budget).2] at hprev2
      rw [summary_eq_exact cfg _ cat now_utc hprev2
        (goc_fst st cat (py_month_start now_utc) pmb.base_budget).2]
      rw [cum_replay cfg _ cat (py_month_start now_utc) hcur hUB hMSB]

/-- C6: calling `current_month_summary` twice for the same category in the
same month over a unique month-start store yields identical results — and the
identical final state, so no second BudgetPeriod row is created for that
(category, month); and `get_or_create_monthly_budget` called repeatedly with
the same key returns the stored row, ignoring the default-base argument on
every subsequent call. -/
theorem C6_summary_idempotent (cfg : String → ℚ) (st : DBState) (cat : Category)
    (now_utc : PyDateTime) (hU : UniqueBudgets st.budgets)
    (hMS : MonthStartBudgets st.budgets) :
    (current_month_summary cfg (current_month_summary cfg st cat now_utc).2 cat now_utc
        = current_month_summary cfg st cat now_utc)
      ∧ (∀ (st' : DBState) (m : PyDateTime) (d d' : ℚ),
          get_or_create_monthly_budget
              (get_or_create_monthly_budget st' cat m d).2 cat m d'
            = ((get_or_create_monthly_budget st' cat m d).1,
               (get_or_create_monthly_budget st' cat m d).2)) :=
  ⟨C6_summary_idempotent_main cfg st cat now_utc hU hMS,
   fun st' m d d' => goc_idempotent st' cat m d d'⟩

/-- C6 witness: the scenario state in February 2024. -/
theorem C6_summary_idempotent_witness :
    (current_month_summary cfg400
        (current_month_summary cfg400 st_scenario catGroceries dFeb2024_10).2
        catGroceries dFeb2024_10
      = current_month_summary cfg400 st_scenario catGroceries dFeb2024_10)
      ∧ (∀ (st' : DBState) (m : PyDateTime) (d d' : ℚ),
          get_or_create_monthly_budget
              (get_or_create_monthly_budget st' catGroceries m d).2 catGroceries m d'
            = ((get_or_create_monthly_budget st' catGroceries m d).1,
               (get_or_create_monthly_budget st' catGroceries m d).2)) :=
  C6_summary_idempotent cfg400 st_scenario catGroceries dFeb2024_10
    (by exact List.Pairwise.nil) (by intro mb h; exact absurd h (List.not_mem_nil mb))
